import Mathlib

/-!
Verification development for the test-scenario generation pipeline of the
jira-ai-test-generator repository.

The Python sources embedded here (shallowly, as total Lean functions) are:
  * app/clients/enhanced_ai_client.py  (EnhancedAIClient: response parse/repair
    cascade, record validator/cleaner, deduplicator, rate-budget check,
    scenario cache),
  * app/clients/ai_service_manager.py  (AIServiceManager: tier dispatch,
    prioritizer/bounder, template scenarios).

Modelling conventions:
  * Python strings are Lean `String`s handled through their `.data` character
    lists; Python `len`/slicing count code points, matching `List.length` /
    `List.take` on `.data`.
  * Python `str.lower`/`str.upper`/`str.isdigit` etc. are modelled on ASCII
    (`pyToLower`, `pyToUpper`, ...), which covers every string the claims and
    this code base manipulate.
  * Code that can raise is modelled in `Except PyErr`; an exception caught by a
    Python `except` block is a `.error` value consumed by a `match`.
  * External network calls (the LLM tiers) are oracle parameters: the claims
    under study concern the dispatch/caching/parsing logic around them.
  * `json.loads` is modelled by a strict recursive-descent JSON parser
    (`json_loads`); numbers are kept as their lexemes (they are never used
    arithmetically by this code), `NaN/Infinity` extensions are omitted.
-/

/-- Python exception kinds that the embedded code can raise. -/
inductive PyErr where
  | attributeError
  | typeError
  deriving DecidableEq, Repr

/-- Python `str.strip()` / regex `\s` whitespace set (ASCII). -/
def pySpace (c : Char) : Bool :=
  c = ' ' || c = '\t' || c = '\n' || c = '\r' || c = '\x0b' || c = '\x0c'

/-- ASCII model of Python `str.lower` on one character. -/
def pyToLower (c : Char) : Char :=
  match c with
  | 'A' => 'a' | 'B' => 'b' | 'C' => 'c' | 'D' => 'd' | 'E' => 'e' | 'F' => 'f'
  | 'G' => 'g' | 'H' => 'h' | 'I' => 'i' | 'J' => 'j' | 'K' => 'k' | 'L' => 'l'
  | 'M' => 'm' | 'N' => 'n' | 'O' => 'o' | 'P' => 'p' | 'Q' => 'q' | 'R' => 'r'
  | 'S' => 's' | 'T' => 't' | 'U' => 'u' | 'V' => 'v' | 'W' => 'w' | 'X' => 'x'
  | 'Y' => 'y' | 'Z' => 'z' | c => c

/-- ASCII model of Python `str.upper` on one character. -/
def pyToUpper (c : Char) : Char :=
  match c with
  | 'a' => 'A' | 'b' => 'B' | 'c' => 'C' | 'd' => 'D' | 'e' => 'E' | 'f' => 'F'
  | 'g' => 'G' | 'h' => 'H' | 'i' => 'I' | 'j' => 'J' | 'k' => 'K' | 'l' => 'L'
  | 'm' => 'M' | 'n' => 'N' | 'o' => 'O' | 'p' => 'P' | 'q' => 'Q' | 'r' => 'R'
  | 's' => 'S' | 't' => 'T' | 'u' => 'U' | 'v' => 'V' | 'w' => 'W' | 'x' => 'X'
  | 'y' => 'Y' | 'z' => 'Z' | c => c

/-- Python `len(s)` (code points). -/
def pyLen (s : String) : Nat := s.data.length

/-- Python `s.lower()`. -/
def pyLower (s : String) : String := ⟨s.data.map pyToLower⟩

/-- Python `s.strip()`: remove leading and trailing whitespace. -/
def pyStrip (s : String) : String :=
  ⟨((s.data.dropWhile pySpace).reverse.dropWhile pySpace).reverse⟩

/-- Python `s[:n]` (slice of the first `n` code points). -/
def pyTake (s : String) (n : Nat) : String := ⟨s.data.take n⟩

/-- Python `p in s` substring test, on character lists. -/
def subOf (pat : List Char) : List Char → Bool
  | [] => pat.isEmpty
  | c :: cs => pat.isPrefixOf (c :: cs) || subOf pat cs

/-- Python `pat in s` substring test on strings. -/
def strContainsSub (s pat : String) : Bool := subOf pat.data s.data

/-- Python `s.startswith(p)`. -/
def pyStartsWith (s p : String) : Bool := p.data.isPrefixOf s.data

/-- Python `s.split(sep)` for a single-character separator (keeps empty parts). -/
def splitChar (sep : Char) : List Char → List (List Char)
  | [] => [[]]
  | x :: xs =>
    match splitChar sep xs with
    | [] => [[x]]
    | h :: t => if x = sep then [] :: h :: t else (x :: h) :: t

/-- Python `s.split()` with no argument: split on whitespace runs, dropping
empty tokens (accumulator holds the current token reversed). -/
def wsplitAux : List Char → List Char → List (List Char)
  | [], acc => if acc.isEmpty then [] else [acc.reverse]
  | c :: cs, acc =>
    if pySpace c then
      if acc.isEmpty then wsplitAux cs [] else acc.reverse :: wsplitAux cs []
    else wsplitAux cs (c :: acc)

/-- Python `s.split()` (whitespace split, no empties). -/
def wsplit (l : List Char) : List (List Char) := wsplitAux l []

/-- Decimal rendering of a natural number, for Python f-string interpolation
of loop indices. -/
def natToStr (n : Nat) : String := toString n

/-! ### JSON values and `json.loads`

A strict model of Python's `json.loads`: whole-input parse, double-quoted
strings with escapes, no trailing separators, unescaped control characters
rejected.  Numbers are kept as their lexemes. -/

/-- A parsed JSON value (Python object produced by `json.loads`). -/
inductive Json where
  | null
  | bool (b : Bool)
  | num (lexeme : String)
  | str (s : String)
  | arr (elems : List Json)
  | obj (fields : List (String × Json))

/-- JSON structural whitespace accepted by Python's `json` module. -/
def jsonWs (c : Char) : Bool := c = ' ' || c = '\t' || c = '\n' || c = '\r'

/-- Hex digit value, for `\uXXXX` string escapes (by code point: digits are
48-57, lowercase a-f are 97-102, uppercase A-F are 65-70). -/
def hexDigitVal (c : Char) : Option Nat :=
  let n := c.toNat
  if 48 ≤ n ∧ n ≤ 57 then some (n - 48)
  else if 97 ≤ n ∧ n ≤ 102 then some (n - 87)
  else if 65 ≤ n ∧ n ≤ 70 then some (n - 55)
  else none

/-- Body of a JSON string after the opening quote: collect characters until the
closing quote, decoding escapes; raw control characters are a decode error
(Python's strict mode). -/
def jParseStrBody (acc : List Char) : List Char → Option (String × List Char)
  | '"' :: rest => some (⟨acc.reverse⟩, rest)
  | '\\' :: 'u' :: a :: b :: c :: d :: rest =>
    (do
      let va ← hexDigitVal a
      let vb ← hexDigitVal b
      let vc ← hexDigitVal c
      let vd ← hexDigitVal d
      some (((va * 16 + vb) * 16 + vc) * 16 + vd)) |>.bind
      (fun n => jParseStrBody (Char.ofNat n :: acc) rest)
  | '\\' :: e :: rest =>
    (match e with
     | '"' => some '"' | '\\' => some '\\' | '/' => some '/'
     | 'n' => some '\n' | 't' => some '\t' | 'r' => some '\r'
     | 'b' => some (Char.ofNat 8) | 'f' => some (Char.ofNat 12)
     | _ => none).bind (fun ch => jParseStrBody (ch :: acc) rest)
  | c :: rest => if c.toNat < 32 then none else jParseStrBody (c :: acc) rest
  | [] => none

/-- JSON number lexeme: `-? (0 | [1-9][0-9]*) (. [0-9]+)? ([eE][+-]?[0-9]+)?`.
Returns the lexeme and the rest of the input. -/
def jParseNum (cs : List Char) : Option (String × List Char) :=
  let (sign, cs1) := match cs with
    | '-' :: r => (['-'], r)
    | _ => (([] : List Char), cs)
  match cs1 with
  | [] => none
  | c :: r =>
    if c = '0' then finish (sign ++ ['0']) r
    else if c.isDigit then
      let ds := r.takeWhile Char.isDigit
      finish (sign ++ c :: ds) (r.dropWhile Char.isDigit)
    else none
where
  /-- optional fraction and exponent after the integer part -/
  finish (intPart : List Char) (cs : List Char) : Option (String × List Char) :=
    let (frac, cs2) : List Char × List Char :=
      match cs with
      | '.' :: r =>
        let ds := r.takeWhile Char.isDigit
        if ds.isEmpty then (['.'], r)  -- marker for malformed fraction
        else ('.' :: ds, r.dropWhile Char.isDigit)
      | _ => ([], cs)
    if frac = ['.'] then none
    else
      match cs2 with
      | 'e' :: r | 'E' :: r =>
        let (esign, r2) : List Char × List Char :=
          match r with
          | '+' :: r2 => (['+'], r2)
          | '-' :: r2 => (['-'], r2)
          | _ => ([], r)
        let ds := r2.takeWhile Char.isDigit
        if ds.isEmpty then none
        else some (⟨intPart ++ frac ++ 'e' :: esign ++ ds⟩, r2.dropWhile Char.isDigit)
      | _ => some (⟨intPart ++ frac⟩, cs2)

mutual
/-- One JSON value starting at the current position (leading whitespace
skipped here); consumes fuel on every recursive call. -/
def jParseVal : Nat → List Char → Option (Json × List Char)
  | 0, _ => none
  | fuel + 1, cs =>
    match cs.dropWhile jsonWs with
    | 'n' :: 'u' :: 'l' :: 'l' :: rest => some (.null, rest)
    | 't' :: 'r' :: 'u' :: 'e' :: rest => some (.bool true, rest)
    | 'f' :: 'a' :: 'l' :: 's' :: 'e' :: rest => some (.bool false, rest)
    | '"' :: rest =>
      (jParseStrBody [] rest).map (fun p => (.str p.1, p.2))
    | '[' :: rest =>
      (match (rest.dropWhile jsonWs) with
       | ']' :: rest2 => some (.arr [], rest2)
       | _ => jParseArrItems fuel rest [])
    | '{' :: rest =>
      (match (rest.dropWhile jsonWs) with
       | '}' :: rest2 => some (.obj [], rest2)
       | _ => jParseObjItems fuel rest [])
    | c :: rest =>
      if c = '-' || c.isDigit then
        (jParseNum (c :: rest)).map (fun p => (.num p.1, p.2))
      else none
    | [] => none

/-- Comma-separated array items up to the closing bracket. -/
def jParseArrItems : Nat → List Char → List Json → Option (Json × List Char)
  | 0, _, _ => none
  | fuel + 1, cs, acc =>
    match jParseVal fuel cs with
    | none => none
    | some (v, rest) =>
      match rest.dropWhile jsonWs with
      | ',' :: rest2 => jParseArrItems fuel rest2 (v :: acc)
      | ']' :: rest2 => some (.arr (v :: acc).reverse, rest2)
      | _ => none

/-- Comma-separated `"key": value` object members up to the closing brace. -/
def jParseObjItems : Nat → List Char → List (String × Json) →
    Option (Json × List Char)
  | 0, _, _ => none
  | fuel + 1, cs, acc =>
    match cs.dropWhile jsonWs with
    | '"' :: rest =>
      match jParseStrBody [] rest with
      | none => none
      | some (key, rest2) =>
        match rest2.dropWhile jsonWs with
        | ':' :: rest3 =>
          match jParseVal fuel rest3 with
          | none => none
          | some (v, rest4) =>
            match rest4.dropWhile jsonWs with
            | ',' :: rest5 => jParseObjItems fuel rest5 ((key, v) :: acc)
            | '}' :: rest5 => some (.obj ((key, v) :: acc).reverse, rest5)
            | _ => none
        | _ => none
    | _ => none
end

/-- Model of Python `json.loads`: parse the whole string; anything left over
(beyond trailing whitespace) is a `json.JSONDecodeError` ("Extra data"). -/
def json_loads (s : String) : Except Unit Json :=
  match jParseVal (2 * s.data.length + 8) s.data with
  | some (v, rest) =>
    if (rest.dropWhile jsonWs).isEmpty then .ok v else .error ()
  | none => .error ()

/-- Python `dict.get(k)` on an object produced by `json.loads` (duplicate keys:
last one wins, as in Python). -/
def jget (kvs : List (String × Json)) (k : String) : Option Json :=
  (kvs.reverse.find? (fun p => p.1 = k)).map (fun p => p.2)

/-- Python `dict.get(k, dflt)`. -/
def jgetD (kvs : List (String × Json)) (k : String) (dflt : Json) : Json :=
  (jget kvs k).getD dflt

/-- Python `k in dict`. -/
def jhasKey (kvs : List (String × Json)) (k : String) : Bool :=
  (jget kvs k).isSome

/-- Python truthiness of a `json.loads` value (`if scenarios:`).  A number is
falsy when its mantissa (digits before any exponent) is all zeros. -/
def jsonTruthy : Json → Bool
  | .null => false
  | .bool b => b
  | .num lex => !(lex.data.takeWhile (fun c => c ≠ 'e' ∧ c ≠ 'E')).all
      (fun c => !c.isDigit || c = '0')
  | .str s => !s.data.isEmpty
  | .arr xs => !xs.isEmpty
  | .obj kvs => !kvs.isEmpty

/-- Python `len` of a `json.loads` value: defined for strings, lists and
dicts; a `TypeError` otherwise. -/
def jsonLen : Json → Except PyErr Nat
  | .str s => .ok s.data.length
  | .arr xs => .ok xs.length
  | .obj kvs => .ok kvs.length
  | _ => .error .typeError

/-! ### EnhancedAIClient: record validator/cleaner
(`app/clients/enhanced_ai_client.py`, `_validate_and_clean_scenario`) -/

namespace EnhancedAIClient

/-- The cleaned scenario record returned by `_validate_and_clean_scenario`:
`title`/`description`/`steps` are always strings after cleaning, while
`severity`/`priority`/`automation` are passed through from the candidate
unchanged (so they keep whatever JSON value the candidate carried). -/
structure Scenario where
  title : String
  description : String
  steps : List String
  severity : Json
  priority : Json
  automation : Json

/-- Python `x.strip()` when `x` came out of a dict: any non-string value has
no `.strip` attribute and raises `AttributeError`. -/
def asPyStr : Json → Except PyErr String
  | .str s => .ok s
  | _ => .error .attributeError

/-- `re.sub(r'[\*\+\-]', '', s)`: delete every `*`, `+`, `-`. -/
def stripMarkers (s : String) : String :=
  ⟨s.data.filter (fun c => !(c = '*' || c = '+' || c = '-'))⟩

/-- `re.sub(r'^[\d\.\s]+', '', s)` (and the `*`-quantified variant, which
rewrites identically): drop the leading run of digits, dots and whitespace. -/
def dropLeadingEnum (s : String) : String :=
  ⟨s.data.dropWhile (fun c => c.isDigit || c = '.' || pySpace c)⟩

/-- `title[0].upper() + title[1:] if title else title`. -/
def capitalizeFirst (s : String) : String :=
  match s.data with
  | [] => s
  | c :: cs => ⟨pyToUpper c :: cs⟩

/-- The generic-title blocklist of `_validate_and_clean_scenario`. -/
def genericTitles : List String := ["test scenario", "scenario", "test case", "test"]

/-- The action-verb list of `_validate_and_clean_scenario`. -/
def actionWords : List String := ["verify", "test", "check", "validate", "ensure", "confirm"]

/-- The step-cleaning loop of `_validate_and_clean_scenario`: keep string
steps that survive cleaning with more than 5 characters, renumbering those
that do not start with a digit by the running output position. -/
def cleanSteps (steps : List Json) : List String :=
  steps.foldl
    (fun acc step =>
      match step with
      | .str s =>
        let c := pyStrip (stripMarkers s)
        let c := pyStrip (dropLeadingEnum c)
        if !c.data.isEmpty && c.data.length > 5 then
          let c :=
            if !(c.data.headD ' ').isDigit then
              natToStr (acc.length + 1) ++ ". " ++ c
            else c
          acc ++ [c]
        else acc
      | _ => acc)
    []

/-- `EnhancedAIClient._validate_and_clean_scenario` (lines 430-497).  `.ok none`
is Python `None` (rejection); `.error` is an exception escaping the method
(e.g. `.strip()` on a non-string field). -/
def _validate_and_clean_scenario (scenario : Json) : Except PyErr (Option Scenario) :=
  match scenario with
  | .obj kvs =>
    match asPyStr (jgetD kvs "title" (.str "")) with
    | .error e => .error e
    | .ok titleRaw =>
      let title := pyStrip titleRaw
      if title.data.isEmpty || pyLen title < 10 then .ok none
      else if genericTitles.contains (pyLower title) then .ok none
      else
        let title := pyStrip (stripMarkers title)
        let title := pyStrip (dropLeadingEnum title)
        let title :=
          if actionWords.any (fun w => pyStartsWith (pyLower title) w) then title
          else "Verify " ++ pyLower title
        let title := capitalizeFirst title
        match asPyStr (jgetD kvs "description" (.str "")) with
        | .error e => .error e
        | .ok descRaw =>
          let description := pyStrip descRaw
          let description := pyStrip (stripMarkers description)
          let description :=
            if description.data.isEmpty then "Test scenario for " ++ pyLower title
            else description
          let steps : List Json :=
            match jget kvs "steps" with
            | none => []
            | some (.str s) => [.str s]
            | some (.arr xs) => xs
            | some _ => [.str "1. Execute test steps", .str "2. Verify expected results"]
          let cleaned := cleanSteps steps
          let cleaned :=
            if cleaned.isEmpty then
              ["1. Set up test environment", "2. Execute the test scenario",
               "3. Verify expected results"]
            else cleaned
          .ok (some
            { title := pyTake title 100
              description := pyTake description 200
              steps := cleaned.take 5
              severity := jgetD kvs "severity" (.str "S3 - Moderate")
              priority := jgetD kvs "priority" (.str "P3 - Medium")
              automation := jgetD kvs "automation" (.str "Manual") })
  | _ => .ok none

end EnhancedAIClient

namespace EnhancedAIClient

/-! ### Regex scanners used by the parse/repair cascade

Python `re.sub`/`re.search`/`re.findall` calls are modelled by left-to-right
scanners over character lists.  Scanners that can skip more than one
character per step take a fuel argument (always called with fuel at least the
input length, which each step strictly decreases by at least one consumed
character, so the fuel never runs out on the initial call). -/

/-- Opening brace character (ASCII 123). -/
def lbrace : Char := Char.ofNat 123

/-- Closing brace character (ASCII 125). -/
def rbrace : Char := Char.ofNat 125

/-- `re.sub(r'\*\*([^*]+)\*\*', r'\1', s)`: unwrap bold markers. -/
def subBoldAux : Nat → List Char → List Char
  | 0, cs => cs
  | fuel + 1, cs =>
    match cs with
    | [] => []
    | '*' :: '*' :: rest =>
      let content := rest.takeWhile (fun c => c ≠ '*')
      (match rest.dropWhile (fun c => c ≠ '*') with
       | '*' :: '*' :: rest2 =>
         if content.isEmpty then '*' :: subBoldAux fuel ('*' :: rest)
         else content ++ subBoldAux fuel rest2
       | _ => '*' :: subBoldAux fuel ('*' :: rest))
    | c :: rest => c :: subBoldAux fuel rest

/-- `re.sub(r'\*([^*]+)\*', r'\1', s)`: unwrap italic markers. -/
def subStarAux : Nat → List Char → List Char
  | 0, cs => cs
  | fuel + 1, cs =>
    match cs with
    | [] => []
    | '*' :: rest =>
      let content := rest.takeWhile (fun c => c ≠ '*')
      (match rest.dropWhile (fun c => c ≠ '*') with
       | '*' :: rest2 =>
         if content.isEmpty then '*' :: subStarAux fuel rest
         else content ++ subStarAux fuel rest2
       | _ => '*' :: subStarAux fuel rest)
    | c :: rest => c :: subStarAux fuel rest

/-- `re.sub(r'^[\+\-\*]\s*', '', s, flags=re.MULTILINE)`: drop a bullet marker
and the following whitespace at each line start.  The boolean tracks whether
the scanner stands at a line start (string start or just after a newline). -/
def subBulletAux : Nat → Bool → List Char → List Char
  | 0, _, cs => cs
  | fuel + 1, atStart, cs =>
    match cs with
    | [] => []
    | c :: rest =>
      if atStart && (c = '+' || c = '-' || c = '*') then
        let ws := rest.takeWhile pySpace
        subBulletAux fuel (ws.getLast? = some '\n') (rest.dropWhile pySpace)
      else c :: subBulletAux fuel (c = '\n') rest

/-- `re.sub(r'^\d+\.\s*', '', s, flags=re.MULTILINE)`: drop a leading `N.`
enumeration and the following whitespace at each line start. -/
def subNumDotAux : Nat → Bool → List Char → List Char
  | 0, _, cs => cs
  | fuel + 1, atStart, cs =>
    match cs with
    | [] => []
    | c :: rest =>
      if atStart && c.isDigit then
        (match rest.dropWhile Char.isDigit with
         | '.' :: rest2 =>
           let ws := rest2.takeWhile pySpace
           subNumDotAux fuel (ws.getLast? = some '\n') (rest2.dropWhile pySpace)
         | _ => c :: subNumDotAux fuel false rest)
      else c :: subNumDotAux fuel (c = '\n') rest

/-- Case-insensitive literal prefix match: if the lowercase pattern `pat` is a
prefix of `cs` (up to `pyToLower`), return the remainder. -/
def ciPre : List Char → List Char → Option (List Char)
  | [], cs => some cs
  | _ :: _, [] => none
  | p :: ps, c :: cs => if pyToLower c = p then ciPre ps cs else none

/-- Lazy `.*?:` within one line: advance to the first `:` not crossing a
newline and return the remainder after it. -/
def lazyColon : Nat → List Char → Option (List Char)
  | 0, _ => none
  | fuel + 1, cs =>
    match cs with
    | [] => none
    | ':' :: rest => some rest
    | '\n' :: _ => none
    | _ :: rest => lazyColon fuel rest

/-- Lazy `.*?scenarios.*?:` within one line, with backtracking over the
`scenarios` occurrence: find the earliest case-insensitive `scenarios`
followed (lazily, same line) by a `:`; return the remainder after the `:`. -/
def lazyScenColon : Nat → List Char → Option (List Char)
  | 0, _ => none
  | fuel + 1, cs =>
    match ciPre "scenarios".data cs with
    | some r =>
      (match lazyColon (r.length + 1) r with
       | some r2 => some r2
       | none =>
         match cs with
         | c :: rest => if c = '\n' then none else lazyScenColon fuel rest
         | [] => none)
    | none =>
      match cs with
      | c :: rest => if c = '\n' then none else lazyScenColon fuel rest
      | [] => none

/-- `re.sub(lead ++ r'.*?scenarios.*?:', '', s, flags=re.IGNORECASE)` where
`lead` is a literal ("here are the" / "below are"). -/
def subPhraseAux (lead : List Char) : Nat → List Char → List Char
  | 0, cs => cs
  | fuel + 1, cs =>
    match cs with
    | [] => []
    | c :: rest =>
      match ciPre lead cs with
      | some r =>
        (match lazyScenColon (r.length + 1) r with
         | some r2 => subPhraseAux lead fuel r2
         | none => c :: subPhraseAux lead fuel rest)
      | none => c :: subPhraseAux lead fuel rest

/-- `EnhancedAIClient._clean_response_text` (lines 416-428): strip markdown
bold/italic markers, bullet and enumeration line prefixes and two
lead-in phrases, then `strip()`. -/
def _clean_response_text (text : String) : String :=
  let n := text.data.length + 1
  let t := subBoldAux n text.data
  let t := subStarAux (t.length + 1) t
  let t := subBulletAux (t.length + 1) true t
  let t := subNumDotAux (t.length + 1) true t
  let t := subPhraseAux "here are the".data (t.length + 1) t
  let t := subPhraseAux "below are".data (t.length + 1) t
  pyStrip ⟨t⟩

/-- `re.search(r'\[[\s\S]*\]', s)`: greedy match from the first `[` to the
last `]`, when the former precedes the latter. -/
def extract_bracket (s : String) : Option String :=
  match s.data.findIdx? (fun c => c = '[') with
  | none => none
  | some i =>
    match s.data.reverse.findIdx? (fun c => c = ']') with
    | none => none
    | some rj =>
      let j := s.data.length - 1 - rj
      if i < j then some ⟨(s.data.drop i).take (j - i + 1)⟩ else none

/-- `re.sub(r'}\s*{', '},{', s)`: comma between adjacent objects. -/
def fixSepObjects : Nat → List Char → List Char
  | 0, cs => cs
  | fuel + 1, cs =>
    match cs with
    | [] => []
    | c :: rest =>
      if c = rbrace then
        (match rest.dropWhile pySpace with
         | d :: rest2 =>
           if d = lbrace then c :: ',' :: d :: fixSepObjects fuel rest2
           else c :: fixSepObjects fuel rest
         | [] => c :: fixSepObjects fuel rest)
      else c :: fixSepObjects fuel rest

/-- `re.sub(r'"\s*}\s*{', '",},{', s)`. -/
def fixQuoteObjObj : Nat → List Char → List Char
  | 0, cs => cs
  | fuel + 1, cs =>
    match cs with
    | [] => []
    | c :: rest =>
      if c = '"' then
        (match rest.dropWhile pySpace with
         | d :: rest2 =>
           if d = rbrace then
             match rest2.dropWhile pySpace with
             | e :: rest3 =>
               if e = lbrace then c :: ',' :: d :: ',' :: e :: fixQuoteObjObj fuel rest3
               else c :: fixQuoteObjObj fuel rest
             | [] => c :: fixQuoteObjObj fuel rest
           else c :: fixQuoteObjObj fuel rest
         | [] => c :: fixQuoteObjObj fuel rest)
      else c :: fixQuoteObjObj fuel rest

/-- `re.sub(r'"\s*}\s*]', '",}]', s)`. -/
def fixQuoteObjArr : Nat → List Char → List Char
  | 0, cs => cs
  | fuel + 1, cs =>
    match cs with
    | [] => []
    | c :: rest =>
      if c = '"' then
        (match rest.dropWhile pySpace with
         | d :: rest2 =>
           if d = rbrace then
             match rest2.dropWhile pySpace with
             | ']' :: rest3 => c :: ',' :: d :: ']' :: fixQuoteObjArr fuel rest3
             | _ => c :: fixQuoteObjArr fuel rest
           else c :: fixQuoteObjArr fuel rest
         | [] => c :: fixQuoteObjArr fuel rest)
      else c :: fixQuoteObjArr fuel rest

/-- Regex `\w` (ASCII model). -/
def isWordChar (c : Char) : Bool := c.isAlphanum || c = '_'

/-- `re.sub(r'(\w+):', r'"\1":', s)`: quote word runs directly followed by a
colon (this also fires inside string values, as in the source). -/
def fixQuoteKeys : Nat → List Char → List Char
  | 0, cs => cs
  | fuel + 1, cs =>
    match cs with
    | [] => []
    | c :: rest =>
      if isWordChar c then
        let run := rest.takeWhile isWordChar
        (match rest.dropWhile isWordChar with
         | ':' :: rest2 => '"' :: c :: (run ++ '"' :: ':' :: fixQuoteKeys fuel rest2)
         | rest1 => c :: (run ++ fixQuoteKeys fuel rest1))
      else c :: fixQuoteKeys fuel rest

/-- `re.sub(r',\s*}', '}', s)`: drop trailing commas before `}`. -/
def fixTrailObj : Nat → List Char → List Char
  | 0, cs => cs
  | fuel + 1, cs =>
    match cs with
    | [] => []
    | c :: rest =>
      if c = ',' then
        (match rest.dropWhile pySpace with
         | d :: rest2 =>
           if d = rbrace then d :: fixTrailObj fuel rest2
           else c :: fixTrailObj fuel rest
         | [] => c :: fixTrailObj fuel rest)
      else c :: fixTrailObj fuel rest

/-- `re.sub(r',\s*]', ']', s)`: drop trailing commas before `]`. -/
def fixTrailArr : Nat → List Char → List Char
  | 0, cs => cs
  | fuel + 1, cs =>
    match cs with
    | [] => []
    | c :: rest =>
      if c = ',' then
        (match rest.dropWhile pySpace with
         | ']' :: rest2 => ']' :: fixTrailArr fuel rest2
         | _ => c :: fixTrailArr fuel rest)
      else c :: fixTrailArr fuel rest

/-- `EnhancedAIClient._fix_malformed_json` (lines 387-414): the six
substitutions in source order, then append missing closing brackets when
the opening counts exceed the closing counts. -/
def _fix_malformed_json (s : String) : String :=
  let t := fixSepObjects (s.data.length + 1) s.data
  let t := fixQuoteObjObj (t.length + 1) t
  let t := fixQuoteObjArr (t.length + 1) t
  let t := fixQuoteKeys (t.length + 1) t
  let t := fixTrailObj (t.length + 1) t
  let t := fixTrailArr (t.length + 1) t
  let t := if t.count '[' > t.count ']' then t ++ [']'] else t
  let t := if t.count lbrace > t.count rbrace then t ++ [rbrace] else t
  ⟨t⟩

/-- `re.findall(r'\{[^{}]*"title"[^{}]*\}', text, re.DOTALL)`: brace-free
brace-delimited fragments whose body contains the literal `"title"`. -/
def findTitleObjects : Nat → List Char → List String
  | 0, _ => []
  | fuel + 1, cs =>
    match cs with
    | [] => []
    | c :: rest =>
      if c = lbrace then
        let body := rest.takeWhile (fun d => !(d = lbrace || d = rbrace))
        (match rest.dropWhile (fun d => !(d = lbrace || d = rbrace)) with
         | d :: rest2 =>
           if d = rbrace && subOf ('"' :: "title".data ++ ['"']) body then
             (⟨c :: (body ++ [d])⟩ : String) :: findTitleObjects fuel rest2
           else findTitleObjects fuel rest
         | [] => findTitleObjects fuel rest)
      else findTitleObjects fuel rest

/-- `re.search('"' ++ key ++ '"' ++ r'\s*:\s*"([^"]+)"', text)`: the capture
of the first such match, used by `_extract_scenario_from_text`. -/
def findFieldStr (key : String) : Nat → List Char → Option String
  | 0, _ => none
  | fuel + 1, cs =>
    match cs with
    | [] => none
    | _ :: rest =>
      if ('"' :: key.data ++ ['"']).isPrefixOf cs then
        let cs1 := cs.drop (key.data.length + 2)
        (match cs1.dropWhile pySpace with
         | ':' :: cs2 =>
           (match cs2.dropWhile pySpace with
            | '"' :: cs3 =>
              let content := cs3.takeWhile (fun d => d ≠ '"')
              (match cs3.dropWhile (fun d => d ≠ '"') with
               | '"' :: _ =>
                 if content.isEmpty then findFieldStr key fuel rest
                 else some ⟨content⟩
               | _ => findFieldStr key fuel rest)
            | _ => findFieldStr key fuel rest)
         | _ => findFieldStr key fuel rest)
      else findFieldStr key fuel rest

/-- `re.search(r'"steps"\s*:\s*\[(.*?)\]', text, re.DOTALL)`: the capture (the
characters between `[` and the first following `]`). -/
def findStepsRegion : Nat → List Char → Option (List Char)
  | 0, _ => none
  | fuel + 1, cs =>
    match cs with
    | [] => none
    | _ :: rest =>
      if ('"' :: "steps".data ++ ['"']).isPrefixOf cs then
        let cs1 := cs.drop 7
        (match cs1.dropWhile pySpace with
         | ':' :: cs2 =>
           (match cs2.dropWhile pySpace with
            | '[' :: cs3 =>
              let content := cs3.takeWhile (fun d => d ≠ ']')
              (match cs3.dropWhile (fun d => d ≠ ']') with
               | ']' :: _ => some content
               | _ => findStepsRegion fuel rest)
            | _ => findStepsRegion fuel rest)
         | _ => findStepsRegion fuel rest)
      else findStepsRegion fuel rest

/-- `re.findall(r'"([^"]+)"', s)`: every non-overlapping non-empty quoted
run. -/
def findQuoted : Nat → List Char → List String
  | 0, _ => []
  | fuel + 1, cs =>
    match cs with
    | [] => []
    | '"' :: rest =>
      let content := rest.takeWhile (fun d => d ≠ '"')
      (match rest.dropWhile (fun d => d ≠ '"') with
       | '"' :: rest2 =>
         if content.isEmpty then findQuoted fuel rest
         else (⟨content⟩ : String) :: findQuoted fuel rest2
       | _ => [])
    | _ :: rest => findQuoted fuel rest

/-- `EnhancedAIClient._extract_scenario_from_text` (lines 340-385): regex
field extraction from a JSON-like fragment, then validation; any exception is
caught by its own handler and becomes `None`. -/
def _extract_scenario_from_text (text : String) : Option Scenario :=
  let fuel := text.data.length + 1
  let title? := (findFieldStr "title" fuel text.data).map pyStrip
  let kvs : List (String × Json) :=
    (match title? with
     | some t => [("title", Json.str t)]
     | none => [])
    ++ (match findFieldStr "description" fuel text.data with
        | some d => [("description", Json.str (pyStrip d))]
        | none => [])
    ++ (match findStepsRegion fuel text.data with
        | some region =>
          [("steps", Json.arr ((findQuoted (region.length + 1) region).map Json.str))]
        | none => [])
    ++ (match findFieldStr "severity" fuel text.data with
        | some v => [("severity", Json.str (pyStrip v))]
        | none => [])
    ++ (match findFieldStr "priority" fuel text.data with
        | some v => [("priority", Json.str (pyStrip v))]
        | none => [])
    ++ (match findFieldStr "automation" fuel text.data with
        | some v => [("automation", Json.str (pyStrip v))]
        | none => [])
  match title? with
  | some t =>
    if !t.data.isEmpty then
      match _validate_and_clean_scenario (.obj kvs) with
      | .ok r => r
      | .error _ => none
    else none
  | none => none

/-- `EnhancedAIClient._extract_json_like_scenarios` (lines 309-338): parse each
`"title"`-bearing brace fragment, falling back to field extraction per
fragment; an exception inside the loop makes the whole call return `None`,
and so does an empty result list. -/
def _extract_json_like_scenarios (text : String) : Option (List Scenario) :=
  match collect (findTitleObjects (text.data.length + 1) text.data) [] with
  | .error _ => none
  | .ok scenarios => if scenarios.isEmpty then none else some scenarios
where
  /-- the `for match in matches` loop body -/
  collect : List String → List Scenario → Except PyErr (List Scenario)
    | [], acc => .ok acc
    | m :: ms, acc =>
      match json_loads m with
      | .ok (.obj kvs) =>
        if jhasKey kvs "title" then
          match _validate_and_clean_scenario (.obj kvs) with
          | .ok (some s) => collect ms (acc ++ [s])
          | .ok none => collect ms acc
          | .error e => .error e
        else collect ms acc
      | .ok _ => collect ms acc
      | .error _ =>
        match _extract_scenario_from_text m with
        | some s => collect ms (acc ++ [s])
        | none => collect ms acc

/-- The action-word tuple used by `_improved_text_to_scenarios` and
`_create_quality_scenario` (five words; no `confirm`). -/
def qualityActionWords : List String := ["verify", "test", "check", "validate", "ensure"]

/-- `EnhancedAIClient._create_quality_scenario` (lines 544-566). -/
def _create_quality_scenario (title : String) : Scenario :=
  let title := pyStrip title
  let title :=
    if qualityActionWords.any (fun w => pyStartsWith (pyLower title) w) then title
    else "Verify " ++ pyLower title
  let title :=
    match title.data with
    | [] => "Test scenario"
    | c :: cs => ⟨pyToUpper c :: cs⟩
  { title := title
    description := "Test scenario to " ++ pyLower title
    steps :=
      ["1. Navigate to the relevant page or section",
       "2. Execute the required test actions",
       "3. Verify the expected outcome occurs",
       "4. Document the test results"]
    severity := .str "S3 - Moderate"
    priority := .str "P3 - Medium"
    automation := .str "Manual" }

/-- `EnhancedAIClient._clean_title_from_line` (lines 531-542). -/
def _clean_title_from_line (line : String) : String :=
  let l := line.data.dropWhile (fun c => c.isDigit || c = '.' || pySpace c)
  let l := l.filter (fun c => !(c = '*' || c = '+' || c = '-'))
  let l :=
    match ciPre "title:".data l with
    | some r => r.dropWhile pySpace
    | none =>
      match ciPre "scenario:".data l with
      | some r => r.dropWhile pySpace
      | none =>
        match ciPre "test:".data l with
        | some r => r.dropWhile pySpace
        | none => l
  let l := l.dropWhile (fun c => c = '"' || c = Char.ofNat 39 || c = '[' || c = lbrace)
  let l := (l.reverse.dropWhile
      (fun c => c = '"' || c = Char.ofNat 39 || c = ']' || c = rbrace)).reverse
  pyStrip ⟨l⟩

/-- The scenario-collecting loop of `_improved_text_to_scenarios`: scan lines,
keep keyword-bearing lines whose cleaned title is longer than 10 characters,
stopping once 8 scenarios are collected. -/
def collectTextScenarios : List String → List Scenario → List Scenario
  | [], acc => acc
  | l :: rest, acc =>
    let line := pyStrip l
    if line.data.isEmpty || pyLen line < 15 then collectTextScenarios rest acc
    else if ["**", "##", "###", "---"].any (fun p => pyStartsWith line p) then
      collectTextScenarios rest acc
    else if ["test", "verify", "check", "validate", "ensure"].any
        (fun k => strContainsSub (pyLower line) k) then
      let cleaned := _clean_title_from_line line
      if !cleaned.data.isEmpty && pyLen cleaned > 10 then
        let acc2 := acc ++ [_create_quality_scenario cleaned]
        if acc2.length ≥ 8 then acc2 else collectTextScenarios rest acc2
      else collectTextScenarios rest acc
    else collectTextScenarios rest acc

/-- The `while len(scenarios) < 6` padding loop of
`_improved_text_to_scenarios`. -/
def padTextScenarios (l : List Scenario) : List Scenario :=
  if l.length < 6 then
    padTextScenarios
      (l ++ [_create_quality_scenario
        ("Test functionality scenario " ++ natToStr (l.length + 1))])
  else l
termination_by 6 - l.length

/-- `EnhancedAIClient._improved_text_to_scenarios` (lines 499-529): the
line-oriented plain-text fallback (total; never raises). -/
def _improved_text_to_scenarios (text : String) : List Scenario :=
  padTextScenarios
    (collectTextScenarios ((splitChar '\n' text.data).map (fun l => ⟨l⟩)) [])

/-- Validate-and-collect loop shared by cascade stages 1-3 (`cleaned_scenarios`
accumulation); an exception from the validator propagates. -/
def cleanScenarioList : List Json → Except PyErr (List Scenario)
  | [] => .ok []
  | x :: rest =>
    match _validate_and_clean_scenario x with
    | .error e => .error e
    | .ok r =>
      match cleanScenarioList rest with
      | .error e => .error e
      | .ok tail =>
        match r with
        | some s => .ok (s :: tail)
        | none => .ok tail

/-- Cascade stage 1 (lines 245-259): direct `json.loads` of the whole
response; used only when it yields a non-empty list.  `.ok none` means "yields
nothing, fall through". -/
def stage_direct (s : String) : Except PyErr (Option (List Scenario)) :=
  match json_loads s with
  | .ok (.arr (x :: xs)) => (cleanScenarioList (x :: xs)).map some
  | _ => .ok none

/-- Cascade stage 2 (lines 261-275): bracket extraction from the cleaned text,
then `json.loads` of the extracted substring. -/
def stage_bracket (s : String) : Except PyErr (Option (List Scenario)) :=
  match extract_bracket (_clean_response_text s) with
  | none => .ok none
  | some sub =>
    match json_loads sub with
    | .ok (.arr (x :: xs)) => (cleanScenarioList (x :: xs)).map some
    | _ => .ok none

/-- Cascade stage 3 (lines 276-293): attempted only when stage 2's parse
raised `JSONDecodeError`; repair the extracted substring with
`_fix_malformed_json` and re-parse. -/
def stage_repair (s : String) : Except PyErr (Option (List Scenario)) :=
  match extract_bracket (_clean_response_text s) with
  | none => .ok none
  | some sub =>
    match json_loads sub with
    | .error _ =>
      let fixed := _fix_malformed_json sub
      if !fixed.data.isEmpty then
        match json_loads fixed with
        | .ok (.arr (x :: xs)) => (cleanScenarioList (x :: xs)).map some
        | _ => .ok none
      else .ok none
    | .ok _ => .ok none

/-- Cascade stages 1-4 in source order; `.ok none` means every structured
stage yielded nothing and the text fallback is next. -/
def parse_stages (s : String) : Except PyErr (Option (List Scenario)) :=
  match stage_direct s with
  | .error e => .error e
  | .ok (some l) => .ok (some l)
  | .ok none =>
    match stage_bracket s with
    | .error e => .error e
    | .ok (some l) => .ok (some l)
    | .ok none =>
      match stage_repair s with
      | .error e => .error e
      | .ok (some l) => .ok (some l)
      | .ok none => .ok (_extract_json_like_scenarios s)

/-- `EnhancedAIClient._improved_parse_scenarios` (lines 240-307): the whole
parse/repair cascade.  The outer `try/except` makes any exception from
stages 1-4 fall back to `_improved_text_to_scenarios`, which is also the
normal final stage; the function is total and never raises. -/
def _improved_parse_scenarios (s : String) : List Scenario :=
  match parse_stages s with
  | .ok (some l) => l
  | .ok none => _improved_text_to_scenarios s
  | .error _ => _improved_text_to_scenarios s

end EnhancedAIClient

namespace EnhancedAIClient

/-! ### Deduplicator (`_remove_duplicate_scenarios`, `_calculate_similarity`,
lines 916-946) -/

/-- The lower-cased word-token set of a text (Python
`set(text.lower().split())`). -/
def tokenSet (s : String) : Finset String :=
  ((wsplit (pyLower s).data).map (fun l => (⟨l⟩ : String))).toFinset

/-- `EnhancedAIClient._calculate_similarity` (lines 935-946): Jaccard index of
the lower-cased word-token sets, `0` when either set is empty (exact rational
arithmetic models the float division; the ratios involved are exactly
representable comparisons against `4/5`). -/
def _calculate_similarity (text1 text2 : String) : ℚ :=
  let words1 := tokenSet text1
  let words2 := tokenSet text2
  if words1 = ∅ ∨ words2 = ∅ then 0
  else
    let inter := (words1 ∩ words2).card
    let union := (words1 ∪ words2).card
    if union > 0 then (inter : ℚ) / (union : ℚ) else 0

/-- The loop of `_remove_duplicate_scenarios`: `unique` is the accepted output
so far, `seen` the lower-cased stripped titles of the accepted records. -/
def dedupeLoop : List Scenario → List Scenario → List String → List Scenario
  | [], unique, _ => unique
  | s :: rest, unique, seen =>
    let title := pyStrip (pyLower s.title)
    if seen.any (fun st => _calculate_similarity title st > 4 / 5) then
      dedupeLoop rest unique seen
    else dedupeLoop rest (unique ++ [s]) (seen ++ [title])

/-- `EnhancedAIClient._remove_duplicate_scenarios` (lines 916-933). -/
def _remove_duplicate_scenarios (scenarios : List Scenario) : List Scenario :=
  dedupeLoop scenarios [] []

/-! ### Rate-budget check (`_check_rate_limit`, lines 1302-1321) -/

/-- The `rate_limit` entry of `self.llm_services[service]`, when the service
exists and carries one (`huggingface`: 1000, `groq`: 100; `ollama_local` has
no such key). -/
def llm_rate_limit : String → Option Nat
  | "huggingface" => some 1000
  | "groq" => some 100
  | _ => none

/-- `self.llm_services.get(service, {}).get('rate_limit', 100)`. -/
def service_rate_limit (service : String) : Nat :=
  (llm_rate_limit service).getD 100

/-- The mutable rate-limiting state of the client: `request_counts` (a dict
read with default 0) and `last_reset_time`.  Timestamps are rationals,
modelling `time.time()` floats. -/
structure RateState where
  request_counts : String → Nat
  last_reset_time : ℚ

/-- `EnhancedAIClient._check_rate_limit` (lines 1302-1321): reset all counters
when the window has elapsed, refuse when the counter has reached the limit,
otherwise increment and admit. -/
def _check_rate_limit (st : RateState) (service : String) (current_time : ℚ) :
    Bool × RateState :=
  let st :=
    if current_time - st.last_reset_time > 3600 then
      { request_counts := fun _ => 0, last_reset_time := current_time }
    else st
  let rate_limit := service_rate_limit service
  let current_count := st.request_counts service
  if current_count ≥ rate_limit then (false, st)
  else
    (true,
     { st with request_counts :=
        fun s => if s = service then current_count + 1 else st.request_counts s })

/-- Repeated `_check_rate_limit` calls for one service at the given
timestamps, collecting the returned booleans. -/
def iterate_checks (service : String) (ts : List ℚ) (st : RateState) :
    List Bool × RateState :=
  ts.foldl
    (fun acc t =>
      let r := _check_rate_limit acc.2 service t
      (acc.1 ++ [r.1], r.2))
    ([], st)

/-! ### Story objects and the scenario cache
(`generate_comprehensive_test_scenarios` lines 83-121, `_generate_cache_key`
lines 123-130) -/

end EnhancedAIClient

/-- The fields of a Jira story dict that this pipeline reads
(`story.get('fields', {})`, then `summary` / `description`). -/
structure StoryFields where
  summary : Option String
  description : Option String

/-- A story dict: `fields` may be absent (`story.get('fields', {})` gives an
empty dict). -/
structure Story where
  fields : Option StoryFields

/-- `story.get('fields', {}).get('summary', '')`. -/
def storySummary (story : Story) : String :=
  match story.fields with
  | none => ""
  | some f => f.summary.getD ""

namespace EnhancedAIClient

/-- Deterministic stand-in for `hashlib.md5(key.encode()).hexdigest()[:8]`: a
polynomial hash of the UTF-8 bytes rendered as 8 hex characters.  Every
property proved about the cache key depends only on this being a function of
the input string, which holds for MD5 as well. -/
def md5hex8 (s : String) : String :=
  let h := s.toUTF8.toList.foldl (fun h b => (h * 131 + b.toNat) % 4294967296) 5381
  let hexDigit (n : Nat) : Char :=
    if n < 10 then Char.ofNat ('0'.toNat + n) else Char.ofNat ('a'.toNat + n - 10)
  ⟨[hexDigit (h / 16 ^ 7 % 16), hexDigit (h / 16 ^ 6 % 16),
    hexDigit (h / 16 ^ 5 % 16), hexDigit (h / 16 ^ 4 % 16),
    hexDigit (h / 16 ^ 3 % 16), hexDigit (h / 16 ^ 2 % 16),
    hexDigit (h / 16 % 16), hexDigit (h % 16)]⟩

/-- `EnhancedAIClient._generate_cache_key` (lines 123-130): digest of the
first 100 characters of the story summary. -/
def _generate_cache_key (story : Story) : String :=
  md5hex8 (pyTake (storySummary story) 100)

/-- The client state relevant to caching: the `scenario_cache` dict (newest
binding first, first match wins on lookup) and the `cache_scenarios` config
flag.  `gen_count` counts executions of the regeneration branch (it is not a
field of the Python object; it makes "no regeneration happened" a provable
statement about the model). -/
structure CacheState where
  scenario_cache : List (String × String)
  cache_enabled : Bool
  gen_count : Nat

/-- `cache_key in self.scenario_cache` / `self.scenario_cache[cache_key]`. -/
def cacheLookup (cache : List (String × String)) (k : String) : Option String :=
  (cache.find? (fun p => p.1 = k)).map (fun p => p.2)

/-- `EnhancedAIClient.generate_comprehensive_test_scenarios` (lines 83-121).
`pipeline` is the body of the `try` block past the cache check (story
analysis, tier generation, validation, `json.dumps`), whose value depends on
external LLM calls; `fallback` is `self.fallback_ai.generate_test_scenarios`,
reached when the body raises, in which case nothing is cached. -/
def generate_comprehensive_test_scenarios
    (pipeline : Story → Except PyErr String) (fallback : Story → String)
    (st : CacheState) (story : Story) : String × CacheState :=
  let cache_key := _generate_cache_key story
  match if st.cache_enabled then cacheLookup st.scenario_cache cache_key else none with
  | some cached => (cached, st)
  | none =>
    match pipeline story with
    | .ok result =>
      (result,
       { st with
          scenario_cache :=
            if st.cache_enabled then (cache_key, result) :: st.scenario_cache
            else st.scenario_cache
          gen_count := st.gen_count + 1 })
    | .error _ => (fallback story, { st with gen_count := st.gen_count + 1 })

end EnhancedAIClient

/-! ### AIServiceManager (`app/clients/ai_service_manager.py`) -/

namespace AIServiceManager

/-- A scenario dict handled by the manager (parsed JSON object / template
dict): an association list of fields. -/
def SDict := List (String × Json)

/-- The manager configuration read through `self.config.get`: scenario count
bounds (env defaults 3 and 10). -/
structure AIConfig where
  min_scenarios : Nat
  max_scenarios : Nat

/-- The configuration defaults (`config.get('min_scenarios', 3)`,
`config.get('max_scenarios', 10)`, matching the environment defaults in
`config/config.py`). -/
def defaultConfig : AIConfig := { min_scenarios := 3, max_scenarios := 10 }

/-- `priority_order.get(value, 3)` of `_prioritize_scenarios` (line 283).
Keys are strings; any other (hashable) value falls to the default 3. -/
def priorityOrd : Json → Nat
  | .str "P1 - Critical" => 1
  | .str "P2 - High" => 2
  | .str "P3 - Medium" => 3
  | .str "P4 - Low" => 4
  | _ => 3

/-- `severity_order.get(value, 3)` of `_prioritize_scenarios` (line 284). -/
def severityOrd : Json → Nat
  | .str "S1 - Critical" => 1
  | .str "S2 - Major" => 2
  | .str "S3 - Moderate" => 3
  | .str "S4 - Low" => 4
  | _ => 3

/-- `scenario_score` (lines 286-289): priority ordinal plus severity ordinal,
lower meaning more important. -/
def scenario_score (s : SDict) : Nat :=
  priorityOrd (jgetD s "priority" (.str "P3 - Medium")) +
    severityOrd (jgetD s "severity" (.str "S3 - Moderate"))

/-- Stable insertion into a score-sorted prefix: the new element goes after
every element whose score is at most its own (so Python's stable `sorted` is
matched on equal scores). -/
def insertByScore (x : SDict) : List SDict → List SDict
  | [] => [x]
  | y :: ys =>
    if scenario_score y ≤ scenario_score x then y :: insertByScore x ys
    else x :: y :: ys

/-- `AIServiceManager._prioritize_scenarios` (lines 281-291): stable sort
ascending by `scenario_score`. -/
def _prioritize_scenarios (scenarios : List SDict) : List SDict :=
  scenarios.foldl (fun acc x => insertByScore x acc) []

/-- `AIServiceManager._generate_basic_scenario` (lines 223-259): deterministic
template scenario number `index` for the story. -/
def _generate_basic_scenario (story : Story) (index : Nat) : SDict :=
  let title :=
    match story.fields with
    | none => "Test Story"
    | some f => f.summary.getD "Test Story"
  let scenario_types : List (List (String × Json)) :=
    [[("title", .str ("Verify " ++ title ++ " - Functional Test " ++ natToStr index)),
      ("description", .str ("Test core functionality of " ++ title)),
      ("severity", .str "S3 - Moderate"),
      ("priority", .str "P3 - Medium")],
     [("title", .str ("Verify " ++ title ++ " - Error Handling " ++ natToStr index)),
      ("description", .str ("Test error handling for " ++ title)),
      ("severity", .str "S2 - Major"),
      ("priority", .str "P2 - High")],
     [("title", .str ("Verify " ++ title ++ " - Boundary Test " ++ natToStr index)),
      ("description", .str ("Test boundary conditions for " ++ title)),
      ("severity", .str "S3 - Moderate"),
      ("priority", .str "P3 - Medium")]]
  let template := scenario_types.getD ((index - 1) % 3) []
  template ++
    [("steps", .arr [.str "1. Set up test environment", .str "2. Execute test steps",
       .str "3. Verify expected results", .str "4. Clean up test data"]),
     ("automation", .str "Manual")]

/-- The `while len(scenarios) < min_scenarios` padding loop of
`_ensure_scenario_limits` (lines 212-214). -/
def padToMin (story : Story) (minS : Nat) (scenarios : List SDict) : List SDict :=
  if _h : scenarios.length < minS then
    padToMin story minS (scenarios ++ [_generate_basic_scenario story (scenarios.length + 1)])
  else scenarios
termination_by minS - scenarios.length
decreasing_by
  have hlen : (scenarios ++ [_generate_basic_scenario story (scenarios.length + 1)]).length
      = scenarios.length + 1 := by simp
  omega

/-- `AIServiceManager._ensure_scenario_limits` (lines 206-221): pad below the
minimum with template scenarios, truncate above the maximum to the
highest-priority records after sorting. -/
def _ensure_scenario_limits (cfg : AIConfig) (scenarios : List SDict)
    (story : Story) : List SDict :=
  let scenarios := padToMin story cfg.min_scenarios scenarios
  if scenarios.length > cfg.max_scenarios then
    (_prioritize_scenarios scenarios).take cfg.max_scenarios
  else scenarios

/-- The outcomes of the two generation tiers called by
`generate_test_scenarios`: each either returns a string or raises.  Both are
external calls (network for the enhanced tier), so they are environment
parameters of the dispatch logic under study. -/
structure TierEnv where
  enhanced : Except PyErr String
  cursor : Except PyErr String

/-- `self._generate_basic_scenarios(story)` (called at lines 91 and 97):
`AIServiceManager` defines `_generate_basic_scenario` (singular) and
`_generate_minimal_scenarios`, but no attribute `_generate_basic_scenarios`,
so the attribute lookup itself raises `AttributeError`. -/
def _generate_basic_scenarios (_story : Story) : Except PyErr String :=
  .error .attributeError

/-- The `try` body of `AIServiceManager.generate_test_scenarios`
(lines 68-91): enhanced tier, then fallback tier, then the (missing)
basic-scenario branch. -/
def generate_try_body (env : TierEnv) (story : Story) : Except PyErr String :=
  let step_fallback : Except PyErr String :=
    match env.cursor with
    | .error e => .error e
    | .ok fallback_result =>
      if !fallback_result.data.isEmpty then
        match json_loads fallback_result with
        | .ok _ => .ok fallback_result
        | .error _ => _generate_basic_scenarios story
      else _generate_basic_scenarios story
  match env.enhanced with
  | .error e => .error e
  | .ok enhanced_result =>
    if !enhanced_result.data.isEmpty then
      match json_loads enhanced_result with
      | .ok scenarios =>
        if jsonTruthy scenarios then
          match jsonLen scenarios with
          | .ok n => if n ≥ 3 then .ok enhanced_result else step_fallback
          | .error e => .error e
        else step_fallback
      | .error _ => step_fallback
    else step_fallback

/-- `AIServiceManager.generate_test_scenarios` (lines 64-97): the `try` body,
with `except Exception` routing every failure to the (missing)
`_generate_basic_scenarios` attribute. -/
def generate_test_scenarios (env : TierEnv) (story : Story) : Except PyErr String :=
  match generate_try_body env story with
  | .ok r => .ok r
  | .error _ => _generate_basic_scenarios story

end AIServiceManager

/-! ### Statement-level helper definitions -/

namespace EnhancedAIClient

/-- The fixed severity enumeration (the keys of the manager's
`severity_order`, also the values used throughout the templates). -/
def severityEnum : List String :=
  ["S1 - Critical", "S2 - Major", "S3 - Moderate", "S4 - Low"]

/-- The fixed priority enumeration (the keys of the manager's
`priority_order`). -/
def priorityEnum : List String :=
  ["P1 - Critical", "P2 - High", "P3 - Medium", "P4 - Low"]

/-- A candidate field is either absent or holds a string (the shape every
parser stage produces for `title`/`description`). -/
def strOrAbsent (kvs : List (String × Json)) (k : String) : Bool :=
  match jget kvs k with
  | none => true
  | some (.str _) => true
  | some _ => false

/-- The candidate's title string (empty when the field is absent), before any
cleaning: `scenario.get('title', '')` under `strOrAbsent`. -/
def candTitle (kvs : List (String × Json)) : String :=
  match jget kvs "title" with
  | some (.str s) => s
  | _ => ""

/-- The candidate's description string under `strOrAbsent`. -/
def candDescription (kvs : List (String × Json)) : String :=
  match jget kvs "description" with
  | some (.str s) => s
  | _ => ""

end EnhancedAIClient

/-- The uppercase ASCII letters (the domain of the character tables). -/
def upperChars : List Char :=
  ['A','B','C','D','E','F','G','H','I','J','K','L','M',
   'N','O','P','Q','R','S','T','U','V','W','X','Y','Z']

/-- The lowercase ASCII letters. -/
def lowerChars : List Char :=
  ['a','b','c','d','e','f','g','h','i','j','k','l','m',
   'n','o','p','q','r','s','t','u','v','w','x','y','z']

/-! ## Lemmas and claim theorems -/

theorem pyToLower_fix (d : Char) (h : d ∉ upperChars) : pyToLower d = d := by
  unfold pyToLower
  split <;> simp_all [upperChars]

theorem pyToLower_not_upper (c : Char) : pyToLower c ∉ upperChars := by
  unfold pyToLower
  split <;> simp_all [upperChars]

theorem pyToLower_idem (c : Char) : pyToLower (pyToLower c) = pyToLower c :=
  pyToLower_fix _ (pyToLower_not_upper c)

theorem pyToLower_pyToUpper (c : Char) : pyToLower (pyToUpper c) = pyToLower c := by
  unfold pyToUpper
  split <;> rfl

theorem pyToUpper_fix (d : Char) (h : d ∉ lowerChars) : pyToUpper d = d := by
  unfold pyToUpper
  split <;> simp_all [lowerChars]

theorem pyToUpper_not_lower (c : Char) : pyToUpper c ∉ lowerChars := by
  unfold pyToUpper
  split <;> simp_all [lowerChars]

theorem pyToUpper_idem (c : Char) : pyToUpper (pyToUpper c) = pyToUpper c :=
  pyToUpper_fix _ (pyToUpper_not_lower c)

theorem pySpace_pyToLower (c : Char) : pySpace (pyToLower c) = pySpace c := by
  unfold pyToLower
  split <;> rfl

/-- `pyToLower` creates no `*`, `+` or `-` characters. -/
theorem pyToLower_marker (c : Char)
    (h : pyToLower c = '*' ∨ pyToLower c = '+' ∨ pyToLower c = '-') :
    c = '*' ∨ c = '+' ∨ c = '-' := by
  unfold pyToLower at h
  revert h
  split <;> intro h <;> first | exact h | exact absurd h (by decide)

/-- `pyToUpper` creates no `*`, `+` or `-` characters. -/
theorem pyToUpper_marker (c : Char)
    (h : pyToUpper c = '*' ∨ pyToUpper c = '+' ∨ pyToUpper c = '-') :
    c = '*' ∨ c = '+' ∨ c = '-' := by
  unfold pyToUpper at h
  revert h
  split <;> intro h <;> first | exact h | exact absurd h (by decide)

/-! ### Claim C1 -/

/-- Claim C1 (code bug): in the all-failure case the entry point does NOT
return a basic-scenario list — it raises.  With the enhanced tier returning
the JSON string of an empty list and the fallback tier returning unparseable
text, `AIServiceManager.generate_test_scenarios` reaches
`self._generate_basic_scenarios(story)`, an attribute that does not exist on
the class (only `_generate_basic_scenario` and `_generate_minimal_scenarios`
do), so an `AttributeError` is raised inside the `except` handler and
escapes to the caller instead of a non-empty scenario list. -/
theorem AIServiceManager.c1_all_failure_raises_attribute_error :
    AIServiceManager.generate_test_scenarios
      { enhanced := .ok "[]", cursor := .ok "not json" }
      { fields := some { summary := some "Login page", description := none } }
      = .error .attributeError := by
  rfl

/-! ### Claims C9 and C10: the scenario cache -/

/-- Claim C9: with caching enabled, once a first call to
`generate_comprehensive_test_scenarios` has completed and its result is under
the story's fingerprint key (either the pipeline succeeded and stored it, or
the key was already cached), a second call with the identical story is a pure
cache lookup: the key is present in the resulting state's cache, and the
second call returns exactly the first call's result with the state unchanged
(in particular `gen_count` does not move: the regeneration branch does not
run). -/
theorem EnhancedAIClient.c9_cache_second_call_pure_lookup
    (pipeline : Story → Except PyErr String) (fallback : Story → String)
    (st : EnhancedAIClient.CacheState) (story : Story)
    (henabled : st.cache_enabled = true)
    (hstore : (∃ v, pipeline story = .ok v) ∨
      (EnhancedAIClient.cacheLookup st.scenario_cache
        (EnhancedAIClient._generate_cache_key story)).isSome = true) :
    (EnhancedAIClient.cacheLookup
        (EnhancedAIClient.generate_comprehensive_test_scenarios pipeline fallback
          st story).2.scenario_cache
        (EnhancedAIClient._generate_cache_key story)).isSome = true ∧
    EnhancedAIClient.generate_comprehensive_test_scenarios pipeline fallback
        (EnhancedAIClient.generate_comprehensive_test_scenarios pipeline fallback
          st story).2 story
      = EnhancedAIClient.generate_comprehensive_test_scenarios pipeline fallback
          st story := by
  unfold EnhancedAIClient.generate_comprehensive_test_scenarios
  rw [henabled]
  simp only [if_true]
  cases h1 : EnhancedAIClient.cacheLookup st.scenario_cache
      (EnhancedAIClient._generate_cache_key story) with
  | some v => simp [h1, henabled]
  | none =>
    rcases hstore with ⟨v, hv⟩ | hsome
    · simp [hv, henabled, EnhancedAIClient.cacheLookup]
    · simp [h1] at hsome

/-- Witness for C9 at a concrete pipeline, state and story. -/
theorem EnhancedAIClient.c9_cache_second_call_pure_lookup_witness :
    (({ scenario_cache := [], cache_enabled := true, gen_count := 0 }
        : EnhancedAIClient.CacheState).cache_enabled = true) ∧
    EnhancedAIClient.generate_comprehensive_test_scenarios
        (fun _ => .ok "[]") (fun _ => "fb")
        (EnhancedAIClient.generate_comprehensive_test_scenarios
          (fun _ => .ok "[]") (fun _ => "fb")
          { scenario_cache := [], cache_enabled := true, gen_count := 0 }
          { fields := some { summary := some "Pay invoice", description := none } }).2
        { fields := some { summary := some "Pay invoice", description := none } }
      = EnhancedAIClient.generate_comprehensive_test_scenarios
          (fun _ => .ok "[]") (fun _ => "fb")
          { scenario_cache := [], cache_enabled := true, gen_count := 0 }
          { fields := some { summary := some "Pay invoice", description := none } } :=
  ⟨rfl,
   (EnhancedAIClient.c9_cache_second_call_pure_lookup
      (fun _ => .ok "[]") (fun _ => "fb")
      { scenario_cache := [], cache_enabled := true, gen_count := 0 }
      { fields := some { summary := some "Pay invoice", description := none } }
      rfl (.inl ⟨"[]", rfl⟩)).2⟩

/-- Claim C10: the cache key is a function of the first 100 characters of
`fields.summary` alone.  Two stories agreeing there share a key regardless of
any other field; consequently, with caching enabled, after a completed (and
stored) call for the first story, a call for the second returns the first
story's cached result and leaves the state untouched. -/
theorem EnhancedAIClient.c10_cache_key_first100_noninterference
    (s1 s2 : Story)
    (hsum : pyTake (storySummary s1) 100 = pyTake (storySummary s2) 100) :
    EnhancedAIClient._generate_cache_key s1 = EnhancedAIClient._generate_cache_key s2 ∧
    ∀ (pipeline : Story → Except PyErr String) (fallback : Story → String)
      (st : EnhancedAIClient.CacheState),
      st.cache_enabled = true →
      ((∃ v, pipeline s1 = .ok v) ∨
        (EnhancedAIClient.cacheLookup st.scenario_cache
          (EnhancedAIClient._generate_cache_key s1)).isSome = true) →
      EnhancedAIClient.generate_comprehensive_test_scenarios pipeline fallback
          (EnhancedAIClient.generate_comprehensive_test_scenarios pipeline fallback
            st s1).2 s2
        = EnhancedAIClient.generate_comprehensive_test_scenarios pipeline fallback
            st s1 := by
  have hkey : EnhancedAIClient._generate_cache_key s1
      = EnhancedAIClient._generate_cache_key s2 := by
    unfold EnhancedAIClient._generate_cache_key
    rw [hsum]
  refine ⟨hkey, ?_⟩
  intro pipeline fallback st henabled hstore
  unfold EnhancedAIClient.generate_comprehensive_test_scenarios
  rw [henabled]
  simp only [if_true]
  rw [← hkey]
  cases h1 : EnhancedAIClient.cacheLookup st.scenario_cache
      (EnhancedAIClient._generate_cache_key s1) with
  | some v => simp [h1, henabled, ← hkey]
  | none =>
    rcases hstore with ⟨v, hv⟩ | hsome
    · simp [hv, henabled, EnhancedAIClient.cacheLookup, ← hkey]
    · simp [h1] at hsome

/-- Witness for C10: two stories with the same summary but different
descriptions share the cache key, and the second story's call returns the
first story's cached result. -/
theorem EnhancedAIClient.c10_cache_key_first100_noninterference_witness :
    (pyTake (storySummary
        { fields := some { summary := some "View order history",
                           description := some "first story text" } }) 100
      = pyTake (storySummary
        { fields := some { summary := some "View order history",
                           description := some "completely different" } }) 100) ∧
    EnhancedAIClient._generate_cache_key
        { fields := some { summary := some "View order history",
                           description := some "first story text" } }
      = EnhancedAIClient._generate_cache_key
          { fields := some { summary := some "View order history",
                             description := some "completely different" } } ∧
    EnhancedAIClient.generate_comprehensive_test_scenarios
        (fun _ => .ok "cached result") (fun _ => "fb")
        (EnhancedAIClient.generate_comprehensive_test_scenarios
          (fun _ => .ok "cached result") (fun _ => "fb")
          { scenario_cache := [], cache_enabled := true, gen_count := 0 }
          { fields := some { summary := some "View order history",
                             description := some "first story text" } }).2
        { fields := some { summary := some "View order history",
                           description := some "completely different" } }
      = EnhancedAIClient.generate_comprehensive_test_scenarios
          (fun _ => .ok "cached result") (fun _ => "fb")
          { scenario_cache := [], cache_enabled := true, gen_count := 0 }
          { fields := some { summary := some "View order history",
                             description := some "first story text" } } := by
  refine ⟨rfl, ?_, ?_⟩
  · exact (EnhancedAIClient.c10_cache_key_first100_noninterference _ _ rfl).1
  · exact (EnhancedAIClient.c10_cache_key_first100_noninterference _ _ rfl).2
      (fun _ => .ok "cached result") (fun _ => "fb")
      { scenario_cache := [], cache_enabled := true, gen_count := 0 }
      rfl (.inl ⟨"cached result", rfl⟩)

/-! ### Claim C3: the rate budget -/

namespace EnhancedAIClient

/-- Every configured rate limit is positive (1000, 100 or the default 100). -/
theorem rate_limit_pos (service : String) : 1 ≤ service_rate_limit service := by
  unfold service_rate_limit llm_rate_limit
  split <;> simp

/-- Folding `_check_rate_limit` over timestamps inside one window: starting
from count `k` with `k` plus the number of calls within the limit, every call
returns `true`, the counter ends at `k` plus the number of calls, and the
window start is unchanged. -/
theorem iterate_aux (service : String) : ∀ (ts : List ℚ) (st : RateState)
    (bs : List Bool) (k : Nat) (r : ℚ),
    st.last_reset_time = r → st.request_counts service = k →
    (∀ t ∈ ts, t - r ≤ 3600) → k + ts.length ≤ service_rate_limit service →
    (ts.foldl (fun acc t =>
        let rr := _check_rate_limit acc.2 service t
        (acc.1 ++ [rr.1], rr.2)) (bs, st)).1 = bs ++ List.replicate ts.length true ∧
    (ts.foldl (fun acc t =>
        let rr := _check_rate_limit acc.2 service t
        (acc.1 ++ [rr.1], rr.2)) (bs, st)).2.request_counts service = k + ts.length ∧
    (ts.foldl (fun acc t =>
        let rr := _check_rate_limit acc.2 service t
        (acc.1 ++ [rr.1], rr.2)) (bs, st)).2.last_reset_time = r := by
  intro ts
  induction ts with
  | nil =>
    intro st bs k r h1 h2 h3 h4
    simp [h1, h2]
  | cons t ts ih =>
    intro st bs k r h1 h2 h3 h4
    have hwin : ¬ (t - st.last_reset_time > 3600) := by
      rw [h1]
      have := h3 t (by simp)
      linarith
    have hcnt : ¬ (st.request_counts service ≥ service_rate_limit service) := by
      rw [h2]
      simp at h4
      omega
    have hstep : _check_rate_limit st service t =
        (true, { st with request_counts :=
          fun s => if s = service then st.request_counts service + 1
                   else st.request_counts s }) := by
      unfold _check_rate_limit
      rw [if_neg hwin, if_neg hcnt]
    simp only [List.foldl_cons, hstep]
    have h2' : (⟨fun s => if s = service then st.request_counts service + 1
        else st.request_counts s, st.last_reset_time⟩ : RateState).request_counts
        service = k + 1 := by simp [h2]
    have h1' : (⟨fun s => if s = service then st.request_counts service + 1
        else st.request_counts s, st.last_reset_time⟩ : RateState).last_reset_time
        = r := h1
    obtain ⟨ha, hb, hc⟩ := ih
      (⟨fun s => if s = service then st.request_counts service + 1
        else st.request_counts s, st.last_reset_time⟩ : RateState)
      (bs ++ [true]) (k + 1) r h1' h2'
      (fun x hx => h3 x (by simp [hx])) (by simp at h4 ⊢; omega)
    refine ⟨?_, ?_, hc⟩
    · rw [ha]
      simp [List.replicate_succ]
    · rw [hb]
      simp only [List.length_cons]
      omega

end EnhancedAIClient

/-- Claim C3: the rate budget check is an atomic check-and-increment on an
hourly window.  From a fresh window (counter 0, window start `r`), the first
`limit` calls for a service all return `true`; a further call inside the same
window returns `false` and leaves the counter at `limit` (no increment); and
from any state, a call whose timestamp exceeds the window start by more than
3600 seconds resets the counters, returns `true`, leaves that service's
counter at 1 and moves the window start to the call time. -/
theorem EnhancedAIClient.c3_rate_budget_spec (service : String)
    (st : EnhancedAIClient.RateState) (r : ℚ) (ts : List ℚ)
    (h1 : st.last_reset_time = r) (h2 : st.request_counts service = 0)
    (h3 : ∀ t ∈ ts, t - r ≤ 3600)
    (h4 : ts.length = EnhancedAIClient.service_rate_limit service) :
    (EnhancedAIClient.iterate_checks service ts st).1
      = List.replicate (EnhancedAIClient.service_rate_limit service) true ∧
    (∀ t, t - r ≤ 3600 →
      (EnhancedAIClient._check_rate_limit
        (EnhancedAIClient.iterate_checks service ts st).2 service t).1 = false ∧
      (EnhancedAIClient._check_rate_limit
        (EnhancedAIClient.iterate_checks service ts st).2 service t).2.request_counts
          service = EnhancedAIClient.service_rate_limit service) ∧
    (∀ (st2 : EnhancedAIClient.RateState) (t2 : ℚ),
      t2 - st2.last_reset_time > 3600 →
      (EnhancedAIClient._check_rate_limit st2 service t2).1 = true ∧
      (EnhancedAIClient._check_rate_limit st2 service t2).2.request_counts service
        = 1 ∧
      (EnhancedAIClient._check_rate_limit st2 service t2).2.last_reset_time = t2) := by
  obtain ⟨ha, hb, hc⟩ :=
    EnhancedAIClient.iterate_aux service ts st [] 0 r h1 h2 h3 (by omega)
  have hfin2 : (EnhancedAIClient.iterate_checks service ts st).2.request_counts
      service = EnhancedAIClient.service_rate_limit service := by
    unfold EnhancedAIClient.iterate_checks
    rw [hb, h4]
    omega
  have hfin3 : (EnhancedAIClient.iterate_checks service ts st).2.last_reset_time
      = r := by
    unfold EnhancedAIClient.iterate_checks
    exact hc
  refine ⟨?_, ?_, ?_⟩
  · unfold EnhancedAIClient.iterate_checks
    rw [ha, h4]
    simp
  · intro t ht
    have hnoreset : ¬ (t - (EnhancedAIClient.iterate_checks service ts
        st).2.last_reset_time > 3600) := by
      rw [hfin3]
      linarith
    unfold EnhancedAIClient._check_rate_limit
    rw [if_neg hnoreset]
    rw [if_pos (by rw [hfin2])]
    exact ⟨rfl, hfin2⟩
  · intro st2 t2 hgt
    unfold EnhancedAIClient._check_rate_limit
    rw [if_pos hgt]
    have hlim := EnhancedAIClient.rate_limit_pos service
    rw [if_neg (by simp; omega)]
    simp

/-- Witness for C3 at the `groq` tier: limit 100, one hundred calls at time 0
inside a window that opened at time 0. -/
theorem EnhancedAIClient.c3_rate_budget_spec_witness :
    (List.replicate 100 (0 : ℚ)).length
        = EnhancedAIClient.service_rate_limit "groq" ∧
    (EnhancedAIClient.iterate_checks "groq" (List.replicate 100 (0 : ℚ))
        { request_counts := fun _ => 0, last_reset_time := 0 }).1
      = List.replicate (EnhancedAIClient.service_rate_limit "groq") true ∧
    (EnhancedAIClient._check_rate_limit
      (EnhancedAIClient.iterate_checks "groq" (List.replicate 100 (0 : ℚ))
        { request_counts := fun _ => 0, last_reset_time := 0 }).2 "groq" 100).1
      = false := by
  have h := EnhancedAIClient.c3_rate_budget_spec "groq"
    { request_counts := fun _ => 0, last_reset_time := 0 } 0
    (List.replicate 100 (0 : ℚ)) rfl rfl
    (by
      intro t ht
      rw [List.eq_of_mem_replicate ht]
      norm_num)
    (by rfl)
  exact ⟨by rfl, h.1, (h.2.1 100 (by norm_num)).1⟩

/-! ### Claims C7 and C8: the prioritizer/bounder -/

namespace AIServiceManager

/-- The padding loop stops at `max` of the input length and the minimum. -/
theorem padToMin_length (story : Story) (minS : Nat) (l : List SDict) :
    (padToMin story minS l).length = max l.length minS := by
  by_cases h : l.length < minS
  · rw [padToMin]
    simp only [h, dite_true]
    rw [padToMin_length story minS (l ++ [_generate_basic_scenario story (l.length + 1)])]
    simp
    omega
  · rw [padToMin]
    simp only [h, dite_false]
    omega
termination_by minS - l.length
decreasing_by
  have : (l ++ [_generate_basic_scenario story (l.length + 1)]).length = l.length + 1 := by
    simp
  omega

/-- Padding is the identity at or above the minimum. -/
theorem padToMin_of_ge (story : Story) (minS : Nat) (l : List SDict)
    (h : minS ≤ l.length) : padToMin story minS l = l := by
  rw [padToMin]
  simp only [dite_eq_right_iff]
  intro hlt
  omega

/-- Stable insertion produces a permutation of consing. -/
theorem insertByScore_perm (x : SDict) (l : List SDict) :
    List.Perm (insertByScore x l) (x :: l) := by
  induction l with
  | nil => rfl
  | cons y ys ih =>
    unfold insertByScore
    by_cases h : scenario_score y ≤ scenario_score x
    · simp only [h, if_true]
      exact ((ih.cons y).trans (List.Perm.swap x y ys))
    · simp only [h, if_false]
      exact List.Perm.refl _

/-- Stable insertion preserves the score ordering. -/
theorem insertByScore_sorted (x : SDict) (l : List SDict)
    (h : l.Pairwise (fun a b => scenario_score a ≤ scenario_score b)) :
    (insertByScore x l).Pairwise (fun a b => scenario_score a ≤ scenario_score b) := by
  induction l with
  | nil => simp [insertByScore]
  | cons y ys ih =>
    rw [List.pairwise_cons] at h
    obtain ⟨hy, hys⟩ := h
    unfold insertByScore
    by_cases hc : scenario_score y ≤ scenario_score x
    · simp only [hc, if_true]
      rw [List.pairwise_cons]
      refine ⟨?_, ih hys⟩
      intro z hz
      rw [(insertByScore_perm x ys).mem_iff, List.mem_cons] at hz
      rcases hz with rfl | hz
      · exact hc
      · exact hy z hz
    · simp only [hc, if_false]
      rw [List.pairwise_cons]
      push_neg at hc
      refine ⟨?_, ?_⟩
      · intro z hz
        rw [List.mem_cons] at hz
        rcases hz with rfl | hz
        · exact le_of_lt hc
        · exact le_trans (le_of_lt hc) (hy z hz)
      · rw [List.pairwise_cons]
        exact ⟨hy, hys⟩

/-- The insertion fold permutes its input onto the accumulator. -/
theorem prioritize_foldl_perm : ∀ (l acc : List SDict),
    List.Perm (l.foldl (fun acc x => insertByScore x acc) acc) (acc ++ l) := by
  intro l
  induction l with
  | nil => simp
  | cons x ls ih =>
    intro acc
    have h1 : (x :: ls).foldl (fun acc x => insertByScore x acc) acc
        = ls.foldl (fun acc x => insertByScore x acc) (insertByScore x acc) := by
      simp [List.foldl_cons]
    have h2 := ih (insertByScore x acc)
    have h3 : List.Perm (insertByScore x acc ++ ls) ((x :: acc) ++ ls) :=
      (insertByScore_perm x acc).append_right ls
    have h4 : List.Perm ((x :: acc) ++ ls) (acc ++ x :: ls) := List.perm_middle.symm
    rw [h1]
    exact (h2.trans h3).trans h4

/-- `_prioritize_scenarios` permutes its input. -/
theorem prioritize_perm (l : List SDict) : List.Perm (_prioritize_scenarios l) l := by
  unfold _prioritize_scenarios
  simpa using prioritize_foldl_perm l []

/-- The insertion fold keeps the accumulator sorted by score. -/
theorem prioritize_foldl_sorted : ∀ (l acc : List SDict),
    acc.Pairwise (fun a b => scenario_score a ≤ scenario_score b) →
    (l.foldl (fun acc x => insertByScore x acc) acc).Pairwise
      (fun a b => scenario_score a ≤ scenario_score b) := by
  intro l
  induction l with
  | nil =>
    intro acc h
    simpa using h
  | cons x ls ih =>
    intro acc h
    simp only [List.foldl_cons]
    exact ih (insertByScore x acc) (insertByScore_sorted x acc h)

/-- `_prioritize_scenarios` sorts ascending by `scenario_score`. -/
theorem prioritize_sorted (l : List SDict) :
    (_prioritize_scenarios l).Pairwise (fun a b => scenario_score a ≤ scenario_score b) := by
  unfold _prioritize_scenarios
  exact prioritize_foldl_sorted l [] (by simp)

/-- Sorting does not change the length. -/
theorem prioritize_length (l : List SDict) :
    (_prioritize_scenarios l).length = l.length :=
  (prioritize_perm l).length_eq

end AIServiceManager

/-- Claim C7: for every input list, `_ensure_scenario_limits` returns a list
whose length lies in `[min, max]`; below the minimum it appends the
deterministic template scenarios (keyed by the running index and the story)
until the count is exactly `min`; above the maximum it truncates to the `max`
most important records after a stable ascending sort by the sum of the
priority and severity ordinals (a permutation of the input, sorted by
`scenario_score`). -/
theorem AIServiceManager.c7_bounder_spec (cfg : AIServiceManager.AIConfig)
    (l : List AIServiceManager.SDict) (story : Story)
    (hcfg : cfg.min_scenarios ≤ cfg.max_scenarios) :
    cfg.min_scenarios ≤ (AIServiceManager._ensure_scenario_limits cfg l story).length ∧
    (AIServiceManager._ensure_scenario_limits cfg l story).length ≤ cfg.max_scenarios ∧
    (l.length < cfg.min_scenarios →
      AIServiceManager._ensure_scenario_limits cfg l story
        = AIServiceManager.padToMin story cfg.min_scenarios l ∧
      (AIServiceManager.padToMin story cfg.min_scenarios l).length
        = cfg.min_scenarios) ∧
    (cfg.max_scenarios < l.length →
      AIServiceManager._ensure_scenario_limits cfg l story
        = (AIServiceManager._prioritize_scenarios l).take cfg.max_scenarios ∧
      (AIServiceManager._prioritize_scenarios l).Pairwise
        (fun a b => AIServiceManager.scenario_score a
          ≤ AIServiceManager.scenario_score b) ∧
      List.Perm (AIServiceManager._prioritize_scenarios l) l) := by
  have hpad := AIServiceManager.padToMin_length story cfg.min_scenarios l
  unfold AIServiceManager._ensure_scenario_limits
  by_cases htr : (AIServiceManager.padToMin story cfg.min_scenarios l).length
      > cfg.max_scenarios
  · simp only [htr, if_true]
    have hlen : ((AIServiceManager._prioritize_scenarios
        (AIServiceManager.padToMin story cfg.min_scenarios l)).take
        cfg.max_scenarios).length = cfg.max_scenarios := by
      rw [List.length_take, AIServiceManager.prioritize_length]
      omega
    refine ⟨by omega, by omega, ?_, ?_⟩
    · intro hlt
      omega
    · intro hgt
      have hge : cfg.min_scenarios ≤ l.length := by omega
      rw [AIServiceManager.padToMin_of_ge story _ _ hge]
      exact ⟨rfl, AIServiceManager.prioritize_sorted l,
        AIServiceManager.prioritize_perm l⟩
  · simp only [htr, if_false]
    refine ⟨by omega, by omega, ?_, ?_⟩
    · intro hlt
      exact ⟨trivial, by omega⟩
    · intro hgt
      have hge : cfg.min_scenarios ≤ l.length := by omega
      rw [AIServiceManager.padToMin_of_ge story _ _ hge] at hpad htr ⊢
      omega

/-- Witness for C7 at the configuration defaults `[3, 10]`, an empty input
list and a twelve-element input list. -/
theorem AIServiceManager.c7_bounder_spec_witness :
    AIServiceManager.defaultConfig.min_scenarios
        ≤ AIServiceManager.defaultConfig.max_scenarios ∧
    3 ≤ (AIServiceManager._ensure_scenario_limits AIServiceManager.defaultConfig
        [] { fields := none }).length ∧
    (AIServiceManager._ensure_scenario_limits AIServiceManager.defaultConfig
        (List.replicate 12 []) { fields := none }).length ≤ 10 :=
  ⟨by decide,
   (AIServiceManager.c7_bounder_spec AIServiceManager.defaultConfig []
      { fields := none } (by decide)).1,
   (AIServiceManager.c7_bounder_spec AIServiceManager.defaultConfig
      (List.replicate 12 []) { fields := none } (by decide)).2.1⟩

/-- Claim C8: `_ensure_scenario_limits` is idempotent — applied to its own
output (already within `[min, max]`) it changes nothing. -/
theorem AIServiceManager.c8_bounder_idempotent (cfg : AIServiceManager.AIConfig)
    (l : List AIServiceManager.SDict) (story : Story)
    (hcfg : cfg.min_scenarios ≤ cfg.max_scenarios) :
    AIServiceManager._ensure_scenario_limits cfg
        (AIServiceManager._ensure_scenario_limits cfg l story) story
      = AIServiceManager._ensure_scenario_limits cfg l story := by
  have hpad := AIServiceManager.padToMin_length story cfg.min_scenarios l
  have hbounds : cfg.min_scenarios
        ≤ (AIServiceManager._ensure_scenario_limits cfg l story).length ∧
      (AIServiceManager._ensure_scenario_limits cfg l story).length
        ≤ cfg.max_scenarios := by
    unfold AIServiceManager._ensure_scenario_limits
    by_cases htr : (AIServiceManager.padToMin story cfg.min_scenarios l).length
        > cfg.max_scenarios
    · simp only [htr, if_true]
      rw [List.length_take, AIServiceManager.prioritize_length]
      omega
    · simp only [htr, if_false]
      omega
  obtain ⟨hmin, hmax⟩ := hbounds
  conv_lhs => rw [AIServiceManager._ensure_scenario_limits]
  rw [AIServiceManager.padToMin_of_ge story _ _ hmin]
  rw [if_neg (by omega)]

/-- Witness for C8 at the configuration defaults and a concrete list. -/
theorem AIServiceManager.c8_bounder_idempotent_witness :
    AIServiceManager.defaultConfig.min_scenarios
        ≤ AIServiceManager.defaultConfig.max_scenarios ∧
    AIServiceManager._ensure_scenario_limits AIServiceManager.defaultConfig
        (AIServiceManager._ensure_scenario_limits AIServiceManager.defaultConfig
          [[("title", Json.str "Sample")]] { fields := none }) { fields := none }
      = AIServiceManager._ensure_scenario_limits AIServiceManager.defaultConfig
          [[("title", Json.str "Sample")]] { fields := none } :=
  ⟨by decide,
   AIServiceManager.c8_bounder_idempotent AIServiceManager.defaultConfig
     [[("title", Json.str "Sample")]] { fields := none } (by decide)⟩

/-! ### Claims C4 and C5: the record validator/cleaner -/


namespace EnhancedAIClient

theorem isPrefixOf_take : ∀ (p l : List Char) (n : Nat),
    p.isPrefixOf l = true → p.length ≤ n → p.isPrefixOf (l.take n) = true := by
  intro p
  induction p with
  | nil => simp [List.isPrefixOf]
  | cons a ps ih =>
    intro l n hp hn
    cases l with
    | nil => simp [List.isPrefixOf] at hp
    | cons b ls =>
      simp only [List.isPrefixOf, Bool.and_eq_true, beq_iff_eq] at hp
      obtain ⟨rfl, hp2⟩ := hp
      cases n with
      | zero => simp at hn
      | succ m =>
        simp only [List.take_succ_cons, List.isPrefixOf, Bool.and_eq_true, beq_iff_eq]
        exact ⟨trivial, ih ls m hp2 (by simpa using hn)⟩

theorem isPrefixOf_append_self : ∀ (p l : List Char), p.isPrefixOf (p ++ l) = true := by
  intro p l
  induction p with
  | nil => simp [List.isPrefixOf]
  | cons a ps ih => simp [List.isPrefixOf, ih]

theorem mem_pyStrip (s : String) (c : Char) (h : c ∈ (pyStrip s).data) :
    c ∈ s.data := by
  unfold pyStrip at h
  simp only [List.mem_reverse] at h
  have h2 := (List.dropWhile_sublist (l := (s.data.dropWhile pySpace).reverse)
    (p := pySpace)).subset h
  simp only [List.mem_reverse] at h2
  exact (List.dropWhile_sublist (l := s.data) (p := pySpace)).subset h2

theorem mem_dropLeadingEnum (s : String) (c : Char)
    (h : c ∈ (dropLeadingEnum s).data) : c ∈ s.data := by
  unfold dropLeadingEnum at h
  exact (List.dropWhile_sublist (l := s.data)
    (p := fun c => c.isDigit || c = '.' || pySpace c)).subset h

theorem stripMarkers_free (s : String) (c : Char) (h : c ∈ (stripMarkers s).data) :
    ¬(c = '*' ∨ c = '+' ∨ c = '-') := by
  unfold stripMarkers at h
  rw [List.mem_filter] at h
  have := h.2
  simp only [Bool.not_eq_true'] at this
  intro hc
  rcases hc with rfl | rfl | rfl <;> simp at this

theorem capitalizeFirst_map_lower (s : String) :
    (capitalizeFirst s).data.map pyToLower = s.data.map pyToLower := by
  unfold capitalizeFirst
  cases hs : s.data with
  | nil => simp [hs]
  | cons c cs => simp [pyToLower_pyToUpper]

theorem capitalizeFirst_of_fix (s : String) (c : Char) (cs : List Char)
    (hdata : s.data = c :: cs) (hfix : pyToUpper c = c) : capitalizeFirst s = s := by
  have hcap : capitalizeFirst s = ⟨pyToUpper c :: cs⟩ := by
    unfold capitalizeFirst
    rw [hdata]
  rw [hcap, hfix, ← hdata]

theorem data_append (a b : String) : (a ++ b).data = a.data ++ b.data := rfl

end EnhancedAIClient

namespace EnhancedAIClient

theorem actionWords_len (w : String) (hw : w ∈ actionWords) : w.data.length ≤ 100 := by
  simp only [actionWords, List.mem_cons, List.not_mem_nil, or_false] at hw
  rcases hw with rfl | rfl | rfl | rfl | rfl | rfl <;> decide

theorem cleaned_title_props (t2 : String)
    (hfree : ∀ c ∈ t2.data, ¬(c = '*' ∨ c = '+' ∨ c = '-')) :
    (pyTake (capitalizeFirst
        (if actionWords.any (fun w => pyStartsWith (pyLower t2) w) then t2
         else "Verify " ++ pyLower t2)) 100).data ≠ [] ∧
    (∀ c ∈ (pyTake (capitalizeFirst
        (if actionWords.any (fun w => pyStartsWith (pyLower t2) w) then t2
         else "Verify " ++ pyLower t2)) 100).data, ¬(c = '*' ∨ c = '+' ∨ c = '-')) ∧
    actionWords.any (fun w => pyStartsWith (pyLower (pyTake (capitalizeFirst
        (if actionWords.any (fun w => pyStartsWith (pyLower t2) w) then t2
         else "Verify " ++ pyLower t2)) 100)) w) = true ∧
    (∃ c cs, (pyTake (capitalizeFirst
        (if actionWords.any (fun w => pyStartsWith (pyLower t2) w) then t2
         else "Verify " ++ pyLower t2)) 100).data = c :: cs ∧ pyToUpper c = c) ∧
    pyLen (pyTake (capitalizeFirst
        (if actionWords.any (fun w => pyStartsWith (pyLower t2) w) then t2
         else "Verify " ++ pyLower t2)) 100) ≤ 100 := by
  by_cases hA : actionWords.any (fun w => pyStartsWith (pyLower t2) w) = true
  · rw [if_pos hA]
    rw [List.any_eq_true] at hA
    obtain ⟨w, hwmem, hw⟩ := hA
    unfold pyStartsWith at hw
    have hwne : w.data ≠ [] := by
      simp only [actionWords, List.mem_cons, List.not_mem_nil, or_false] at hwmem
      rcases hwmem with rfl | rfl | rfl | rfl | rfl | rfl <;> decide
    have ht2ne : t2.data ≠ [] := by
      intro hnil
      cases hwd : w.data with
      | nil => exact hwne hwd
      | cons a as =>
        unfold pyLower at hw
        rw [hnil, hwd] at hw
        simp [List.isPrefixOf] at hw
    obtain ⟨c, cs, hdata⟩ : ∃ c cs, t2.data = c :: cs := by
      cases hd2 : t2.data with
      | nil => exact absurd hd2 ht2ne
      | cons c cs => exact ⟨c, cs, rfl⟩
    have hcap : (capitalizeFirst t2).data = pyToUpper c :: cs := by
      unfold capitalizeFirst
      rw [hdata]
    have hlow : (pyLower (pyTake (capitalizeFirst t2) 100)).data
        = ((pyLower t2).data.take 100) := by
      unfold pyLower pyTake
      simp only [List.map_take]
      rw [capitalizeFirst_map_lower]
    refine ⟨?_, ?_, ?_, ?_, ?_⟩
    · unfold pyTake
      rw [hcap]
      simp
    · intro ch hch
      unfold pyTake at hch
      have hch2 := List.take_subset _ _ hch
      rw [hcap] at hch2
      rcases List.mem_cons.mp hch2 with rfl | hch3
      · intro hmk
        exact hfree c (by rw [hdata]; exact List.mem_cons_self c cs)
          (pyToUpper_marker c hmk)
      · exact hfree ch (by rw [hdata]; exact List.mem_cons_of_mem c hch3)
    · rw [List.any_eq_true]
      refine ⟨w, hwmem, ?_⟩
      unfold pyStartsWith
      rw [hlow]
      exact isPrefixOf_take w.data (pyLower t2).data 100 hw (actionWords_len w hwmem)
    · refine ⟨pyToUpper c, cs.take 99, ?_, pyToUpper_idem c⟩
      unfold pyTake
      rw [hcap]
      rfl
    · unfold pyLen pyTake
      simp
  · rw [if_neg hA]
    have hcapfix : capitalizeFirst ("Verify " ++ pyLower t2)
        = "Verify " ++ pyLower t2 := by
      refine capitalizeFirst_of_fix _ 'V' ("erify ".data ++ (pyLower t2).data) ?_
        (by decide)
      rw [data_append]
      rfl
    rw [hcapfix]
    have hdata6 : ("Verify " ++ pyLower t2).data
        = "Verify ".data ++ (pyLower t2).data := data_append _ _
    refine ⟨?_, ?_, ?_, ?_, ?_⟩
    · intro hnil
      unfold pyTake at hnil
      have h0 : ("Verify " ++ pyLower t2).data.take 100 = [] := hnil
      rw [hdata6] at h0
      exact List.noConfusion h0
    · intro ch hch
      unfold pyTake at hch
      have hch2 := List.take_subset _ _ hch
      rw [hdata6] at hch2
      rcases List.mem_append.mp hch2 with hch3 | hch3
      · intro hmk
        revert hch3
        rcases hmk with rfl | rfl | rfl <;> decide
      · unfold pyLower at hch3
        obtain ⟨c0, hc0mem, rfl⟩ := List.mem_map.mp hch3
        intro hmk
        exact hfree c0 hc0mem (pyToLower_marker c0 hmk)
    · rw [List.any_eq_true]
      refine ⟨"verify", by decide, ?_⟩
      show "verify".data.isPrefixOf
        ((("Verify " ++ pyLower t2).data.take 100).map pyToLower) = true
      rw [List.map_take, hdata6, List.map_append]
      have h1 : ("Verify ".data).map pyToLower = "verify".data ++ [' '] := by decide
      rw [h1, List.append_assoc]
      exact isPrefixOf_take _ _ 100 (isPrefixOf_append_self _ _) (by decide)
    · refine ⟨'V', ("erify ".data ++ (pyLower t2).data).take 99, ?_, by decide⟩
      rfl
    · unfold pyLen pyTake
      simp

end EnhancedAIClient

namespace EnhancedAIClient

theorem jgetD_title_of_strOrAbsent (kvs : List (String × Json))
    (h : strOrAbsent kvs "title" = true) :
    jgetD kvs "title" (.str "") = Json.str (candTitle kvs) := by
  unfold strOrAbsent at h
  unfold jgetD candTitle
  cases hj : jget kvs "title" with
  | none => simp
  | some v => cases v <;> simp_all

theorem jgetD_description_of_strOrAbsent (kvs : List (String × Json))
    (h : strOrAbsent kvs "description" = true) :
    jgetD kvs "description" (.str "") = Json.str (candDescription kvs) := by
  unfold strOrAbsent at h
  unfold jgetD candDescription
  cases hj : jget kvs "description" with
  | none => simp
  | some v => cases v <;> simp_all

theorem take5_ne_nil (l : List String) (h : l ≠ []) : l.take 5 ≠ [] := by
  cases l with
  | nil => exact absurd rfl h
  | cons a t => simp

end EnhancedAIClient

/-- Claim C4: for candidates whose `title`/`description` fields are strings or
absent, the validator never raises; it returns `None` exactly when the
stripped title is empty, shorter than 10 characters, or case-insensitively
equal to a generic blocklist entry; and every accepted record has a
non-empty, marker-free title that begins (case-insensitively) with one of
the fixed action verbs and with a capitalized first character, title and
description truncated to 100/200 characters, and a non-empty steps list of
at most 5 entries (a generic skeleton when no usable steps survive). -/
theorem EnhancedAIClient.c4_validator_spec (kvs : List (String × Json))
    (ht : EnhancedAIClient.strOrAbsent kvs "title" = true)
    (hd : EnhancedAIClient.strOrAbsent kvs "description" = true) :
    (∃ res, EnhancedAIClient._validate_and_clean_scenario (.obj kvs) = .ok res) ∧
    (EnhancedAIClient._validate_and_clean_scenario (.obj kvs) = .ok none ↔
      (pyStrip (EnhancedAIClient.candTitle kvs)).data = [] ∨
      pyLen (pyStrip (EnhancedAIClient.candTitle kvs)) < 10 ∨
      EnhancedAIClient.genericTitles.contains
        (pyLower (pyStrip (EnhancedAIClient.candTitle kvs))) = true) ∧
    (∀ r, EnhancedAIClient._validate_and_clean_scenario (.obj kvs) = .ok (some r) →
      r.title.data ≠ [] ∧
      (∀ c ∈ r.title.data, ¬(c = '*' ∨ c = '+' ∨ c = '-')) ∧
      EnhancedAIClient.actionWords.any
        (fun w => pyStartsWith (pyLower r.title) w) = true ∧
      (∃ c cs, r.title.data = c :: cs ∧ pyToUpper c = c) ∧
      pyLen r.title ≤ 100 ∧ pyLen r.description ≤ 200 ∧
      r.steps ≠ [] ∧ r.steps.length ≤ 5) := by
  have hjt := EnhancedAIClient.jgetD_title_of_strOrAbsent kvs ht
  have hjd := EnhancedAIClient.jgetD_description_of_strOrAbsent kvs hd
  refine ⟨?_, ?_, ?_⟩
  · simp only [EnhancedAIClient._validate_and_clean_scenario, hjt, hjd,
      EnhancedAIClient.asPyStr]
    split
    · exact ⟨none, rfl⟩
    · split
      · exact ⟨none, rfl⟩
      · exact ⟨_, rfl⟩
  · simp only [EnhancedAIClient._validate_and_clean_scenario, hjt, hjd,
      EnhancedAIClient.asPyStr]
    constructor
    · intro h
      split at h
      · rename_i h1
        rw [Bool.or_eq_true, List.isEmpty_iff, decide_eq_true_eq] at h1
        rcases h1 with h1 | h1
        · exact .inl h1
        · exact .inr (.inl h1)
      · split at h
        · rename_i h2
          exact .inr (.inr h2)
        · simp at h
    · intro hcond
      split
      · rfl
      · split
        · rfl
        · exfalso
          rename_i h1 h2
          rw [Bool.or_eq_true, List.isEmpty_iff, decide_eq_true_eq] at h1
          push_neg at h1
          rcases hcond with hc | hc | hc
          · exact h1.1 hc
          · omega
          · exact h2 hc
  · intro r hr
    simp only [EnhancedAIClient._validate_and_clean_scenario, hjt, hjd,
      EnhancedAIClient.asPyStr] at hr
    split at hr
    · simp at hr
    · split at hr
      · simp at hr
      · simp only [Except.ok.injEq, Option.some.injEq] at hr
        subst hr
        have hfree : ∀ c ∈ (pyStrip (EnhancedAIClient.dropLeadingEnum
            (pyStrip (EnhancedAIClient.stripMarkers
              (pyStrip (EnhancedAIClient.candTitle kvs)))))).data,
            ¬(c = '*' ∨ c = '+' ∨ c = '-') := by
          intro c hc
          exact EnhancedAIClient.stripMarkers_free _ c
            (EnhancedAIClient.mem_pyStrip _ c
              (EnhancedAIClient.mem_dropLeadingEnum _ c
                (EnhancedAIClient.mem_pyStrip _ c hc)))
        obtain ⟨p1, p2, p3, p4, p5⟩ := EnhancedAIClient.cleaned_title_props _ hfree
        refine ⟨p1, p2, p3, p4, p5, ?_, ?_, ?_⟩
        · show pyLen (pyTake _ 200) ≤ 200
          unfold pyLen pyTake
          simp
        · show (if _ then _ else _ : List String).take 5 ≠ []
          apply EnhancedAIClient.take5_ne_nil
          split
          · simp
          · rename_i hne
            rw [List.isEmpty_iff] at hne
            exact hne
        · show ((if _ then _ else _ : List String).take 5).length ≤ 5
          rw [List.length_take]
          omega

/-- Claim C5 counterexample: a candidate carrying the unrecognized severity
`"banana"` is accepted with that free-text severity passed through verbatim;
the validator does not coerce present-but-unrecognized values to the enum
defaults, so the output is not restricted to the fixed enumeration. -/
theorem EnhancedAIClient.c5_enum_passthrough_counterexample :
    (match EnhancedAIClient._validate_and_clean_scenario
        (.obj [("title", Json.str "verify login page works"),
               ("severity", Json.str "banana")]) with
     | .ok (some r) => some r.severity
     | _ => none) = some (Json.str "banana") ∧
    EnhancedAIClient.severityEnum.contains "banana" = false := by
  exact ⟨rfl, rfl⟩

/-- Claim C5 as amended: the validator fills `severity`/`priority`/
`automation` with the enum defaults only when the field is ABSENT; any
present value (recognized or not) is passed through unchanged
(`scenario.get(field, default)`). -/
theorem EnhancedAIClient.c5_enum_default_on_absence (kvs : List (String × Json))
    (ht : EnhancedAIClient.strOrAbsent kvs "title" = true)
    (hd : EnhancedAIClient.strOrAbsent kvs "description" = true)
    (r : EnhancedAIClient.Scenario)
    (hr : EnhancedAIClient._validate_and_clean_scenario (.obj kvs) = .ok (some r)) :
    r.severity = jgetD kvs "severity" (.str "S3 - Moderate") ∧
    r.priority = jgetD kvs "priority" (.str "P3 - Medium") ∧
    r.automation = jgetD kvs "automation" (.str "Manual") := by
  have hjt := EnhancedAIClient.jgetD_title_of_strOrAbsent kvs ht
  have hjd := EnhancedAIClient.jgetD_description_of_strOrAbsent kvs hd
  simp only [EnhancedAIClient._validate_and_clean_scenario, hjt, hjd,
    EnhancedAIClient.asPyStr] at hr
  split at hr
  · simp at hr
  · split at hr
    · simp at hr
    · simp only [Except.ok.injEq, Option.some.injEq] at hr
      subst hr
      exact ⟨rfl, rfl, rfl⟩

/-- Witness for the amended C5 at a concrete accepted candidate. -/
theorem EnhancedAIClient.c5_enum_default_on_absence_witness :
    (match EnhancedAIClient._validate_and_clean_scenario
        (.obj [("title", Json.str "verify login page works"),
               ("severity", Json.str "banana")]) with
     | .ok (some r) => some r.severity
     | _ => none)
      = some (jgetD [("title", Json.str "verify login page works"),
               ("severity", Json.str "banana")] "severity" (.str "S3 - Moderate")) := by
  have hsome : ∃ r, EnhancedAIClient._validate_and_clean_scenario
      (.obj [("title", Json.str "verify login page works"),
             ("severity", Json.str "banana")]) = .ok (some r) := ⟨_, rfl⟩
  obtain ⟨r, hr⟩ := hsome
  have hres := EnhancedAIClient.c5_enum_default_on_absence
    [("title", Json.str "verify login page works"), ("severity", Json.str "banana")]
    rfl rfl r hr
  simp only [hr]
  rw [hres.1]


/-- Witness for C4: a too-short title is rejected; a well-formed candidate is
accepted. -/
theorem EnhancedAIClient.c4_validator_spec_witness :
    EnhancedAIClient.strOrAbsent [("title", Json.str "short")] "title" = true ∧
    EnhancedAIClient._validate_and_clean_scenario
        (.obj [("title", Json.str "short")]) = .ok none ∧
    (∃ res, EnhancedAIClient._validate_and_clean_scenario
        (.obj [("title", Json.str "verify login page works")]) = .ok res) := by
  refine ⟨rfl, ?_, ?_⟩
  · exact (EnhancedAIClient.c4_validator_spec [("title", Json.str "short")]
      rfl rfl).2.1.mpr (.inr (.inl (by decide)))
  · exact (EnhancedAIClient.c4_validator_spec
      [("title", Json.str "verify login page works")] rfl rfl).1

/-! ### Claim C6: the deduplicator -/

theorem wsplitAux_all_space (w : List Char) (acc : List Char)
    (hw : ∀ c ∈ w, pySpace c = true) : wsplitAux w acc = wsplitAux [] acc := by
  induction w generalizing acc with
  | nil => rfl
  | cons c w' ih =>
    have hc : pySpace c = true := hw c (List.mem_cons_self c w')
    have hw' : ∀ d ∈ w', pySpace d = true := fun d hd => hw d (List.mem_cons_of_mem c hd)
    unfold wsplitAux
    rw [hc]
    simp only [if_true]
    by_cases hacc : acc.isEmpty
    · simp only [hacc, if_true]
      rw [ih [] hw']
      unfold wsplitAux
      simp [hacc]
    · simp only [hacc, if_false]
      rw [ih [] hw']
      unfold wsplitAux
      simp [hacc]

theorem wsplitAux_append_space (v w : List Char)
    (hw : ∀ c ∈ w, pySpace c = true) :
    ∀ acc, wsplitAux (v ++ w) acc = wsplitAux v acc := by
  induction v with
  | nil =>
    intro acc
    rw [List.nil_append]
    exact wsplitAux_all_space w acc hw
  | cons c v' ih =>
    intro acc
    rw [List.cons_append]
    unfold wsplitAux
    by_cases hc : pySpace c = true
    · simp only [hc, if_true]
      by_cases hacc : acc.isEmpty = true
      · simp only [hacc, if_true, ih]
      · simp only [hacc, if_false, ih]
    · simp only [hc, if_false]
      exact ih (c :: acc)

theorem wsplit_dropWhile_space (l : List Char) :
    wsplit (l.dropWhile pySpace) = wsplit l := by
  induction l with
  | nil => rfl
  | cons c l' ih =>
    by_cases hc : pySpace c = true
    · rw [List.dropWhile_cons_of_pos hc]
      rw [ih]
      show wsplitAux l' [] = wsplitAux (c :: l') []
      conv_rhs => unfold wsplitAux
      rw [hc]
      simp
    · rw [List.dropWhile_cons_of_neg hc]

theorem wsplit_pyStrip (l : List Char) :
    wsplit (((l.dropWhile pySpace).reverse.dropWhile pySpace).reverse) = wsplit l := by
  have hdecomp : l.dropWhile pySpace
      = ((l.dropWhile pySpace).reverse.dropWhile pySpace).reverse
        ++ ((l.dropWhile pySpace).reverse.takeWhile pySpace).reverse := by
    have h0 : (l.dropWhile pySpace).reverse
        = (l.dropWhile pySpace).reverse.takeWhile pySpace
          ++ (l.dropWhile pySpace).reverse.dropWhile pySpace :=
      (List.takeWhile_append_dropWhile pySpace (l.dropWhile pySpace).reverse).symm
    calc l.dropWhile pySpace = (l.dropWhile pySpace).reverse.reverse := by
          rw [List.reverse_reverse]
      _ = ((l.dropWhile pySpace).reverse.takeWhile pySpace
            ++ (l.dropWhile pySpace).reverse.dropWhile pySpace).reverse := by rw [← h0]
      _ = ((l.dropWhile pySpace).reverse.dropWhile pySpace).reverse
            ++ ((l.dropWhile pySpace).reverse.takeWhile pySpace).reverse := by
          rw [List.reverse_append]
  have hspace : ∀ c ∈ ((l.dropWhile pySpace).reverse.takeWhile pySpace).reverse,
      pySpace c = true := by
    intro c hc
    rw [List.mem_reverse] at hc
    exact List.mem_takeWhile_imp hc
  calc wsplit (((l.dropWhile pySpace).reverse.dropWhile pySpace).reverse)
      = wsplit (((l.dropWhile pySpace).reverse.dropWhile pySpace).reverse
          ++ ((l.dropWhile pySpace).reverse.takeWhile pySpace).reverse) :=
        (wsplitAux_append_space _ _ hspace []).symm
    _ = wsplit (l.dropWhile pySpace) := by rw [← hdecomp]
    _ = wsplit l := wsplit_dropWhile_space l

theorem dropWhile_space_map_lower (l : List Char) :
    (l.map pyToLower).dropWhile pySpace = (l.dropWhile pySpace).map pyToLower := by
  induction l with
  | nil => rfl
  | cons c l' ih =>
    simp only [List.map_cons]
    by_cases hc : pySpace c = true
    · rw [List.dropWhile_cons_of_pos (by rw [pySpace_pyToLower]; exact hc),
        List.dropWhile_cons_of_pos hc, ih]
    · rw [List.dropWhile_cons_of_neg (by rw [pySpace_pyToLower]; exact hc),
        List.dropWhile_cons_of_neg hc]
      simp

theorem strip_map_lower (l : List Char) :
    ((((l.map pyToLower).dropWhile pySpace).reverse.dropWhile pySpace).reverse)
      = ((l.dropWhile pySpace).reverse.dropWhile pySpace).reverse.map pyToLower := by
  rw [dropWhile_space_map_lower]
  rw [← List.map_reverse]
  rw [dropWhile_space_map_lower]
  rw [← List.map_reverse]

theorem map_lower_idem (l : List Char) :
    (l.map pyToLower).map pyToLower = l.map pyToLower := by
  rw [List.map_map]
  apply List.map_congr_left
  intro c _
  exact pyToLower_idem c

namespace EnhancedAIClient

theorem tokenSet_norm (t : String) :
    tokenSet (pyStrip (pyLower t)) = tokenSet t := by
  unfold tokenSet
  congr 1
  congr 1
  show wsplit ((pyLower (pyStrip (pyLower t))).data) = wsplit ((pyLower t).data)
  have h1 : (pyLower (pyStrip (pyLower t))).data
      = ((((t.data.map pyToLower).dropWhile pySpace).reverse.dropWhile
          pySpace).reverse).map pyToLower := rfl
  rw [h1, ← strip_map_lower, map_lower_idem]
  exact wsplit_pyStrip (t.data.map pyToLower)

theorem similarity_norm (a b : String) :
    _calculate_similarity (pyStrip (pyLower a)) (pyStrip (pyLower b))
      = _calculate_similarity a b := by
  unfold _calculate_similarity
  rw [tokenSet_norm, tokenSet_norm]

theorem similarity_comm (a b : String) :
    _calculate_similarity a b = _calculate_similarity b a := by
  unfold _calculate_similarity
  dsimp only
  rw [Finset.inter_comm, Finset.union_comm]
  exact if_congr or_comm rfl rfl

theorem similarity_empty (t1 t2 : String)
    (h : tokenSet t1 = ∅ ∨ tokenSet t2 = ∅) :
    _calculate_similarity t1 t2 = 0 := by
  unfold _calculate_similarity
  dsimp only
  rw [if_pos h]

end EnhancedAIClient

namespace EnhancedAIClient

theorem dedupeLoop_append (l : List Scenario) :
    ∀ (u : List Scenario) (seen : List String),
    ∃ rest, dedupeLoop l u seen = u ++ rest ∧ rest.Sublist l := by
  induction l with
  | nil =>
    intro u seen
    exact ⟨[], by simp [dedupeLoop]⟩
  | cons s ls ih =>
    intro u seen
    unfold dedupeLoop
    by_cases hdup : seen.any
        (fun st => _calculate_similarity (pyStrip (pyLower s.title)) st > 4 / 5) = true
    · simp only [hdup, if_true]
      obtain ⟨rest, heq, hsub⟩ := ih u seen
      exact ⟨rest, heq, hsub.trans (List.sublist_cons_self s ls)⟩
    · simp only [hdup, if_false]
      obtain ⟨rest, heq, hsub⟩ := ih (u ++ [s]) (seen ++ [pyStrip (pyLower s.title)])
      refine ⟨s :: rest, ?_, hsub.cons₂ s⟩
      rw [heq, List.append_assoc]
      rfl

theorem dedupeLoop_pairwise (l : List Scenario) :
    ∀ (u : List Scenario) (seen : List String),
    seen = u.map (fun a => pyStrip (pyLower a.title)) →
    u.Pairwise (fun a b => _calculate_similarity a.title b.title ≤ 4 / 5) →
    (dedupeLoop l u seen).Pairwise
      (fun a b => _calculate_similarity a.title b.title ≤ 4 / 5) := by
  induction l with
  | nil =>
    intro u seen hseen hu
    simpa [dedupeLoop] using hu
  | cons s ls ih =>
    intro u seen hseen hu
    unfold dedupeLoop
    by_cases hdup : seen.any
        (fun st => _calculate_similarity (pyStrip (pyLower s.title)) st > 4 / 5) = true
    · simp only [hdup, if_true]
      exact ih u seen hseen hu
    · simp only [hdup, if_false]
      apply ih (u ++ [s]) (seen ++ [pyStrip (pyLower s.title)])
      · simp [hseen]
      · rw [List.pairwise_append]
        refine ⟨hu, List.pairwise_singleton _ _, ?_⟩
        intro a ha b hb
        rw [List.mem_singleton] at hb
        rw [hb]
        rw [List.any_eq_true] at hdup
        push_neg at hdup
        have hle := hdup (pyStrip (pyLower a.title))
          (by rw [hseen]; exact List.mem_map_of_mem _ ha)
        have heq : _calculate_similarity (pyStrip (pyLower s.title))
            (pyStrip (pyLower a.title)) = _calculate_similarity a.title s.title := by
          rw [similarity_norm s.title a.title]
          exact similarity_comm s.title a.title
        rw [heq] at hle
        simp only [ne_eq, decide_eq_true_eq] at hle
        exact le_of_not_lt hle

theorem dedupeLoop_dropped (l : List Scenario) :
    ∀ (u : List Scenario) (seen : List String),
    seen = u.map (fun a => pyStrip (pyLower a.title)) →
    ∀ x ∈ l, x ∉ dedupeLoop l u seen →
    ∃ a ∈ dedupeLoop l u seen, _calculate_similarity a.title x.title > 4 / 5 := by
  induction l with
  | nil =>
    intro u seen hseen x hx
    simp at hx
  | cons s ls ih =>
    intro u seen hseen x hx hnotin
    unfold dedupeLoop at hnotin ⊢
    by_cases hdup : seen.any
        (fun st => _calculate_similarity (pyStrip (pyLower s.title)) st > 4 / 5) = true
    · simp only [hdup, if_true] at hnotin ⊢
      rcases List.mem_cons.mp hx with rfl | hxls
      · rw [List.any_eq_true] at hdup
        obtain ⟨st, hstmem, hst⟩ := hdup
        rw [hseen, List.mem_map] at hstmem
        obtain ⟨a, hamem, rfl⟩ := hstmem
        refine ⟨a, ?_, ?_⟩
        · obtain ⟨rest, heq, _⟩ := dedupeLoop_append ls u seen
          rw [heq]
          exact List.mem_append_left rest hamem
        · rw [similarity_norm, similarity_comm] at hst
          simpa using hst
      · exact ih u seen hseen x hxls hnotin
    · simp only [hdup, if_false] at hnotin ⊢
      rcases List.mem_cons.mp hx with rfl | hxls
      · exfalso
        apply hnotin
        obtain ⟨rest, heq, _⟩ :=
          dedupeLoop_append ls (u ++ [x]) (seen ++ [pyStrip (pyLower x.title)])
        rw [heq]
        exact List.mem_append_left rest (List.mem_append_right u (List.mem_singleton.mpr rfl))
      · exact ih (u ++ [s]) (seen ++ [pyStrip (pyLower s.title)])
          (by simp [hseen]) x hxls hnotin

end EnhancedAIClient

/-- Claim C6: deduplication is order-preserving and first-seen-wins — the
output is a sublist of the input; any two output records have Jaccard
similarity of their lower-cased title token sets at most the 0.8 threshold;
every dropped record is more than 0.8-similar to some kept record (so the
first record of a near-duplicate group survives); and the similarity is 0
when either token set is empty. -/
theorem EnhancedAIClient.c6_dedupe_spec (scenarios : List EnhancedAIClient.Scenario) :
    (EnhancedAIClient._remove_duplicate_scenarios scenarios).Sublist scenarios ∧
    (EnhancedAIClient._remove_duplicate_scenarios scenarios).Pairwise
      (fun a b => EnhancedAIClient._calculate_similarity a.title b.title ≤ 4 / 5) ∧
    (∀ x ∈ scenarios, x ∉ EnhancedAIClient._remove_duplicate_scenarios scenarios →
      ∃ a ∈ EnhancedAIClient._remove_duplicate_scenarios scenarios,
        EnhancedAIClient._calculate_similarity a.title x.title > 4 / 5) ∧
    (∀ t1 t2, EnhancedAIClient.tokenSet t1 = ∅ ∨ EnhancedAIClient.tokenSet t2 = ∅ →
      EnhancedAIClient._calculate_similarity t1 t2 = 0) := by
  refine ⟨?_, ?_, ?_, ?_⟩
  · unfold EnhancedAIClient._remove_duplicate_scenarios
    obtain ⟨rest, heq, hsub⟩ := EnhancedAIClient.dedupeLoop_append scenarios [] []
    rw [heq]
    simpa using hsub
  · exact EnhancedAIClient.dedupeLoop_pairwise scenarios [] [] rfl (by simp)
  · exact EnhancedAIClient.dedupeLoop_dropped scenarios [] [] rfl
  · exact EnhancedAIClient.similarity_empty


/-- Witness for C6 at a concrete three-record list with one near-duplicate
pair. -/
theorem EnhancedAIClient.c6_dedupe_spec_witness :
    (EnhancedAIClient._remove_duplicate_scenarios
      [{ title := "Verify login works", description := "", steps := [],
         severity := .null, priority := .null, automation := .null },
       { title := "verify LOGIN works  ", description := "", steps := [],
         severity := .null, priority := .null, automation := .null },
       { title := "Check a different area", description := "", steps := [],
         severity := .null, priority := .null, automation := .null }]).Sublist
      [{ title := "Verify login works", description := "", steps := [],
         severity := .null, priority := .null, automation := .null },
       { title := "verify LOGIN works  ", description := "", steps := [],
         severity := .null, priority := .null, automation := .null },
       { title := "Check a different area", description := "", steps := [],
         severity := .null, priority := .null, automation := .null }] ∧
    EnhancedAIClient._calculate_similarity "" "no shared tokens" = 0 :=
  ⟨(EnhancedAIClient.c6_dedupe_spec
      [{ title := "Verify login works", description := "", steps := [],
         severity := .null, priority := .null, automation := .null },
       { title := "verify LOGIN works  ", description := "", steps := [],
         severity := .null, priority := .null, automation := .null },
       { title := "Check a different area", description := "", steps := [],
         severity := .null, priority := .null, automation := .null }]).1,
   (EnhancedAIClient.c6_dedupe_spec []).2.2.2 "" "no shared tokens"
     (.inl (by simp [EnhancedAIClient.tokenSet, wsplit, wsplitAux, pyLower]))⟩

/-! ### Claim C2: the parse/repair cascade -/

/-- Claim C2: the parse/repair cascade is total — `_improved_parse_scenarios`
is a function `String → List Scenario`, so it terminates and returns a list
(possibly empty) on every input without raising — and each later stage runs
only when the earlier stages yield nothing: a successful direct parse is
final; bracket extraction is consulted only when the direct parse yields
nothing; malformed-JSON repair only when bracket extraction's parse fails;
per-object field extraction only after those; when every structured stage
yields nothing the line-oriented text fallback supplies the result; and any
exception inside the structured stages is caught and also routed to the text
fallback. -/
theorem EnhancedAIClient.c2_parse_cascade_spec (s : String) :
    (∀ l, EnhancedAIClient.stage_direct s = .ok (some l) →
      EnhancedAIClient._improved_parse_scenarios s = l) ∧
    (∀ l, EnhancedAIClient.stage_direct s = .ok none →
      EnhancedAIClient.stage_bracket s = .ok (some l) →
      EnhancedAIClient._improved_parse_scenarios s = l) ∧
    (∀ l, EnhancedAIClient.stage_direct s = .ok none →
      EnhancedAIClient.stage_bracket s = .ok none →
      EnhancedAIClient.stage_repair s = .ok (some l) →
      EnhancedAIClient._improved_parse_scenarios s = l) ∧
    (∀ l, EnhancedAIClient.stage_direct s = .ok none →
      EnhancedAIClient.stage_bracket s = .ok none →
      EnhancedAIClient.stage_repair s = .ok none →
      EnhancedAIClient._extract_json_like_scenarios s = some l →
      EnhancedAIClient._improved_parse_scenarios s = l) ∧
    (EnhancedAIClient.stage_direct s = .ok none →
      EnhancedAIClient.stage_bracket s = .ok none →
      EnhancedAIClient.stage_repair s = .ok none →
      EnhancedAIClient._extract_json_like_scenarios s = none →
      EnhancedAIClient._improved_parse_scenarios s
        = EnhancedAIClient._improved_text_to_scenarios s) ∧
    (∀ e, EnhancedAIClient.parse_stages s = .error e →
      EnhancedAIClient._improved_parse_scenarios s
        = EnhancedAIClient._improved_text_to_scenarios s) := by
  refine ⟨?_, ?_, ?_, ?_, ?_, ?_⟩
  · intro l h1
    unfold EnhancedAIClient._improved_parse_scenarios EnhancedAIClient.parse_stages
    rw [h1]
  · intro l h1 h2
    unfold EnhancedAIClient._improved_parse_scenarios EnhancedAIClient.parse_stages
    rw [h1, h2]
  · intro l h1 h2 h3
    unfold EnhancedAIClient._improved_parse_scenarios EnhancedAIClient.parse_stages
    rw [h1, h2, h3]
  · intro l h1 h2 h3 h4
    unfold EnhancedAIClient._improved_parse_scenarios EnhancedAIClient.parse_stages
    rw [h1, h2, h3, h4]
  · intro h1 h2 h3 h4
    unfold EnhancedAIClient._improved_parse_scenarios EnhancedAIClient.parse_stages
    rw [h1, h2, h3, h4]
  · intro e he
    unfold EnhancedAIClient._improved_parse_scenarios
    rw [he]

/-- Witness for C2: plain prose falls through every structured stage to the
text fallback, and a directly parseable JSON array is final at stage 1. -/
theorem EnhancedAIClient.c2_parse_cascade_spec_witness :
    EnhancedAIClient.stage_direct "plain prose" = .ok none ∧
    EnhancedAIClient.stage_bracket "plain prose" = .ok none ∧
    EnhancedAIClient.stage_repair "plain prose" = .ok none ∧
    EnhancedAIClient._extract_json_like_scenarios "plain prose" = none ∧
    EnhancedAIClient._improved_parse_scenarios "plain prose"
      = EnhancedAIClient._improved_text_to_scenarios "plain prose" ∧
    EnhancedAIClient.stage_direct "[\"x\", 1]" = .ok (some []) ∧
    EnhancedAIClient._improved_parse_scenarios "[\"x\", 1]" = [] := by
  refine ⟨rfl, rfl, rfl, rfl, ?_, rfl, ?_⟩
  · exact (EnhancedAIClient.c2_parse_cascade_spec "plain prose").2.2.2.2.1 rfl rfl rfl rfl
  · exact (EnhancedAIClient.c2_parse_cascade_spec "[\"x\", 1]").1 [] rfl
